import Mathlib

/-!
# TaskFlow: the task service, embedded and verified

A shallow embedding of the backend of TaskFlow (`backend/models/Task.js`,
`backend/routes/tasks.js`).

* The document store is a list of task records; every query of the routes
  (`findOne`, `findOneAndUpdate`, `findOneAndDelete`, `find`, `countDocuments`)
  is a function on that list.
* `new Date()` is an explicit argument `now`; the identifier a new document
  receives is an explicit argument `newId`.
* The length of a string is its number of characters. Numbers are exact
  integers in `listTasks` and doubles in `listTasksFrom`.
* `populate('user', ...)` only decorates the response with profile fields of
  the owner and is left out: responses carry the stored record.
-/

set_option autoImplicit false

namespace TaskFlow

/-! ## Data model (`models/Task.js`) -/

/-- Identifier of a user document. -/
abbrev UserId := Nat

/-- Identifier of a task document. -/
abbrev TaskId := Nat

/-- Instant in time, in milliseconds since the epoch. -/
abbrev Date := Int

/-- Values of the schema path `status` (its `enum`). -/
inductive Status where
  | pending
  | inProgress
  | completed
  | cancelled
  deriving DecidableEq, Repr

/-- Values of the schema path `priority` (its `enum`). -/
inductive Priority where
  | low
  | medium
  | high
  | urgent
  deriving DecidableEq, Repr

/-- String label of a status, as stored and as sent by clients. -/
def Status.label : Status → String
  | .pending => "pending"
  | .inProgress => "in-progress"
  | .completed => "completed"
  | .cancelled => "cancelled"

/-- String label of a priority. -/
def Priority.label : Priority → String
  | .low => "low"
  | .medium => "medium"
  | .high => "high"
  | .urgent => "urgent"

/-- Reading of a status label; `none` for a string outside the enumeration. -/
def Status.ofLabel (s : String) : Option Status :=
  if s = "pending" then some .pending
  else if s = "in-progress" then some .inProgress
  else if s = "completed" then some .completed
  else if s = "cancelled" then some .cancelled
  else none

/-- Reading of a priority label; `none` for a string outside the enumeration. -/
def Priority.ofLabel (s : String) : Option Priority :=
  if s = "low" then some .low
  else if s = "medium" then some .medium
  else if s = "high" then some .high
  else if s = "urgent" then some .urgent
  else none

/-- A stored task document (`taskSchema`, with `timestamps: true`). -/
structure Task where
  id : TaskId
  title : String
  description : Option String
  status : Status
  priority : Priority
  dueDate : Option Date
  completedAt : Option Date
  tags : List String
  user : UserId
  isCompleted : Bool
  estimatedTime : Option Int
  actualTime : Option Int
  createdAt : Date
  updatedAt : Date
  deriving DecidableEq, Repr

/-- The task collection. -/
abbrev Store := List Task

/-- Value sent for `tags` in a request body. -/
inductive TagsValue where
  | notArray
  | array (items : List String)
  deriving DecidableEq, Repr

/-- A request body, restricted to the paths of `taskSchema` (the schema is
strict, other keys never reach the store). Every path may be absent. `status`
and `priority` are the raw strings; the remaining paths carry a value of the
type the schema casts to. -/
structure Body where
  title : Option String
  description : Option String
  status : Option String
  priority : Option String
  dueDate : Option Date
  completedAt : Option Date
  tags : Option TagsValue
  user : Option UserId
  isCompleted : Option Bool
  estimatedTime : Option Int
  actualTime : Option Int
  deriving DecidableEq, Repr

/-- The body `{}`. -/
def Body.empty : Body :=
  ⟨none, none, none, none, none, none, none, none, none, none, none⟩

/-- The `:id` segment of a request path: a string the store cannot cast to an
object id, or an object id. -/
inductive IdParam where
  | malformed
  | oid (id : TaskId)
  deriving DecidableEq, Repr

/-- Outcome of a route handler. -/
inductive Response (α : Type) where
  | ok (value : α)
  | created (value : α)
  | badRequest (errors : List String)
  | notFound
  | serverError
  deriving DecidableEq, Repr

/-- HTTP status code of a response. -/
def Response.code {α : Type} : Response α → Nat
  | .ok _ => 200
  | .created _ => 201
  | .badRequest _ => 400
  | .notFound => 404
  | .serverError => 500

/-! ## Model methods (`models/Task.js`) -/

/-- `taskSchema.methods.markCompleted`, up to `save`. -/
def Task.markCompleted (t : Task) (now : Date) : Task :=
  { t with status := .completed, isCompleted := true, completedAt := some now }

/-- `taskSchema.methods.updateStatus`, up to `save`. -/
def Task.updateStatus (t : Task) (newStatus : Status) (now : Date) : Task :=
  if newStatus = .completed then
    { t with status := newStatus, isCompleted := true, completedAt := some now }
  else
    { t with status := newStatus, isCompleted := false, completedAt := none }

/-- The virtual `isOverdue`. -/
def Task.isOverdue (t : Task) (now : Date) : Bool :=
  match t.dueDate with
  | none => false
  | some d => if t.isCompleted then false else decide (d < now)

/-! ## Store primitives -/

/-- Selection `{ _id: id, user: requester }`. -/
def ownedBy (id : TaskId) (requester : UserId) (t : Task) : Bool :=
  t.id == id && t.user == requester

/-- `Task.findOne({ _id, user })`. -/
def findOne (store : Store) (id : TaskId) (requester : UserId) : Option Task :=
  store.find? (ownedBy id requester)

/-- Replacement of the first document selected by `p` with its image under `f`. -/
def replaceFirst (p : Task → Bool) (f : Task → Task) : Store → Store
  | [] => []
  | t :: rest => if p t then f t :: rest else t :: replaceFirst p f rest

/-- Removal of the first document selected by `p`. -/
def removeFirst (p : Task → Bool) : Store → Store
  | [] => []
  | t :: rest => if p t then rest else t :: removeFirst p rest

/-- `document.save()` of a document that is already stored: the stored copy
with the same `_id` is replaced, and `updatedAt` is refreshed. -/
def saveExisting (store : Store) (t : Task) (now : Date) : Store :=
  replaceFirst (fun s => s.id == t.id) (fun _ => { t with updatedAt := now }) store

/-! ## Strings -/

/-- White space and line terminators of JavaScript, the characters that
`String.prototype.trim` and the `trim()` sanitizer strip. -/
def isJsSpace (c : Char) : Bool :=
  let n := c.toNat
  n == 32 || (9 ≤ n && n ≤ 13) || n == 160 || n == 5760 || (8192 ≤ n && n ≤ 8202)
    || n == 8232 || n == 8233 || n == 8239 || n == 8287 || n == 12288 || n == 65279

/-- Removal of leading and trailing white space from a list of characters. -/
def trimChars (l : List Char) : List Char :=
  ((l.dropWhile isJsSpace).reverse.dropWhile isJsSpace).reverse

/-- `trim` of JavaScript. -/
def jsTrim (s : String) : String :=
  String.mk (trimChars s.data)

/-! ## Request validation (`express-validator` chains of `routes/tasks.js`)

Each function returns the names of the fields whose chain reports an error;
the request is rejected with status 400 when the list is not empty. -/

/-- Members of `isIn(['pending', 'in-progress', 'completed', 'cancelled'])`. -/
def isStatusLabel (s : String) : Bool :=
  (Status.ofLabel s).isSome

/-- Members of `isIn(['low', 'medium', 'high', 'urgent'])`. -/
def isPriorityLabel (s : String) : Bool :=
  (Priority.ofLabel s).isSome

/-- Chain `optional().trim().isLength({ max: 500 })` on `description`. -/
def descriptionErrors (b : Body) : List String :=
  match b.description with
  | none => []
  | some d => if (jsTrim d).length > 500 then ["description"] else []

/-- Chain `optional().isIn([...])` on `priority`. -/
def priorityErrors (b : Body) : List String :=
  match b.priority with
  | none => []
  | some p => if isPriorityLabel p then [] else ["priority"]

/-- Chain `optional().isArray()` on `tags`. -/
def tagsErrors (b : Body) : List String :=
  match b.tags with
  | some .notArray => ["tags"]
  | _ => []

/-- Chain `optional().isInt({ min: 0 })` on `estimatedTime`. -/
def estimatedTimeErrors (b : Body) : List String :=
  match b.estimatedTime with
  | none => []
  | some v => if 0 ≤ v then [] else ["estimatedTime"]

/-- Chain `optional().isInt({ min: 0 })` on `actualTime`. -/
def actualTimeErrors (b : Body) : List String :=
  match b.actualTime with
  | none => []
  | some v => if 0 ≤ v then [] else ["actualTime"]

/-- Validators of `POST /api/tasks`. The title chain is
`notEmpty().trim().isLength({ max: 100 })`: an absent title is validated as
the empty string. -/
def createValidators (b : Body) : List String :=
  (if b.title.getD "" = "" then ["title"] else [])
    ++ (if (jsTrim (b.title.getD "")).length > 100 then ["title"] else [])
    ++ descriptionErrors b
    ++ priorityErrors b
    ++ tagsErrors b
    ++ estimatedTimeErrors b

/-- Validators of `PUT /api/tasks/:id`. The title chain is
`optional().notEmpty().trim().isLength({ max: 100 })`. -/
def updateValidators (b : Body) : List String :=
  (match b.title with
    | none => []
    | some t =>
      (if t = "" then ["title"] else [])
        ++ (if (jsTrim t).length > 100 then ["title"] else []))
    ++ descriptionErrors b
    ++ priorityErrors b
    ++ (match b.status with
        | none => []
        | some s => if isStatusLabel s then [] else ["status"])
    ++ tagsErrors b
    ++ estimatedTimeErrors b
    ++ actualTimeErrors b

/-- Validators of `PATCH /api/tasks/:id/status`: `body('status').isIn([...])`,
not optional, so an absent status is validated as the empty string. -/
def statusValidators (b : Body) : List String :=
  if isStatusLabel (b.status.getD "") then [] else ["status"]

/-- Effect of the `trim()` sanitizers of the chains on the request body. -/
def sanitize (b : Body) : Body :=
  { b with title := b.title.map jsTrim, description := b.description.map jsTrim }

/-! ## Schema casting and validation (`taskSchema`) -/

/-- Validators of the path `title`: `required`, `maxlength: 100`. -/
def titleValid (t : String) : Bool :=
  t != "" && decide (t.length ≤ 100)

/-- Validator of the path `description`: `maxlength: 500`. -/
def descriptionValid (d : String) : Bool :=
  decide (d.length ≤ 500)

/-- Validator `min: 0` of the paths `estimatedTime` and `actualTime`. -/
def minutesValid (v : Int) : Bool :=
  decide (0 ≤ v)

/-- Items of `tags` after casting (`trim: true` on each item). A value that
is not an array never reaches the schema: both routes reject it first. -/
def castTags : TagsValue → List String
  | .notArray => []
  | .array items => items.map jsTrim

/-- Cast of the path `status` of a new document: the default `'pending'` when
absent, `none` when the `enum` validator fails. -/
def statusOrDefault : Option String → Option Status
  | none => some .pending
  | some s => Status.ofLabel s

/-- Cast of the path `priority` of a new document: the default `'medium'`
when absent, `none` when the `enum` validator fails. -/
def priorityOrDefault : Option String → Option Priority
  | none => some .medium
  | some p => Priority.ofLabel p

/-- The document `new Task(taskData)` with the schema defaults applied, or
`none` when `save` raises a validation error (`title` and `user` are
required). -/
def newDocument (data : Body) (newId : TaskId) (now : Date) : Option Task :=
  let title := jsTrim (data.title.getD "")
  let description := data.description.map jsTrim
  match statusOrDefault data.status, priorityOrDefault data.priority, data.user with
  | some st, some pr, some owner =>
    if titleValid title
        && (description.map descriptionValid).getD true
        && (data.estimatedTime.map minutesValid).getD true
        && (data.actualTime.map minutesValid).getD true then
      some
        { id := newId
          title := title
          description := description
          status := st
          priority := pr
          dueDate := data.dueDate
          completedAt := data.completedAt
          tags := (data.tags.map castTags).getD []
          user := owner
          isCompleted := data.isCompleted.getD false
          estimatedTime := data.estimatedTime
          actualTime := data.actualTime
          createdAt := now
          updatedAt := now }
    else none
  | _, _, _ => none

/-- Update validators (`runValidators: true`) on the paths an update sets;
they run on the update document, before the query is sent to the store. -/
def updateValid (data : Body) : Bool :=
  ((data.title.map fun t => titleValid (jsTrim t)).getD true)
    && ((data.description.map fun d => descriptionValid (jsTrim d)).getD true)
    && ((data.status.map isStatusLabel).getD true)
    && ((data.priority.map isPriorityLabel).getD true)
    && ((data.estimatedTime.map minutesValid).getD true)
    && ((data.actualTime.map minutesValid).getD true)

/-- Effect of the update document `req.body` on a stored task: every path
present in the body is set, `updatedAt` is refreshed, the rest is kept. -/
def applyUpdate (data : Body) (now : Date) (t : Task) : Task :=
  { t with
    title := (data.title.map jsTrim).getD t.title
    description := (data.description.map jsTrim).orElse fun _ => t.description
    status := (data.status.bind Status.ofLabel).getD t.status
    priority := (data.priority.bind Priority.ofLabel).getD t.priority
    dueDate := data.dueDate.orElse fun _ => t.dueDate
    completedAt := data.completedAt.orElse fun _ => t.completedAt
    tags := (data.tags.map castTags).getD t.tags
    user := data.user.getD t.user
    isCompleted := data.isCompleted.getD t.isCompleted
    estimatedTime := data.estimatedTime.orElse fun _ => t.estimatedTime
    actualTime := data.actualTime.orElse fun _ => t.actualTime
    updatedAt := now }

/-! ## Routes on a single task (`routes/tasks.js`) -/

/-- `GET /api/tasks/:id`. -/
def getTask (store : Store) (requester : UserId) (id : IdParam) : Response Task :=
  match id with
  | .malformed => .notFound
  | .oid i =>
    match findOne store i requester with
    | none => .notFound
    | some task => .ok task

/-- `POST /api/tasks`. The body is spread first and `user` is set last, then
the document is saved and read back by its id. -/
def createTask (store : Store) (requester : UserId) (body : Body) (newId : TaskId)
    (now : Date) : Store × Response (Option Task) :=
  let errors := createValidators body
  if errors ≠ [] then (store, .badRequest errors)
  else
    let taskData := { sanitize body with user := some requester }
    match newDocument taskData newId now with
    | none => (store, .serverError)
    | some task =>
      if store.any (fun s => s.id == newId) then (store, .serverError)
      else
        let saved := store ++ [task]
        (saved, .created (saved.find? fun s => s.id == task.id))

/-- `PUT /api/tasks/:id`: `findOneAndUpdate({ _id, user }, req.body,
{ new: true, runValidators: true })`. -/
def updateTask (store : Store) (requester : UserId) (id : IdParam) (body : Body)
    (now : Date) : Store × Response Task :=
  let errors := updateValidators body
  if errors ≠ [] then (store, .badRequest errors)
  else
    let data := sanitize body
    match id with
    | .malformed => (store, .notFound)
    | .oid i =>
      if updateValid data then
        match findOne store i requester with
        | none => (store, .notFound)
        | some task =>
          (replaceFirst (ownedBy i requester) (applyUpdate data now) store,
            .ok (applyUpdate data now task))
      else (store, .serverError)

/-- `DELETE /api/tasks/:id`: `findOneAndDelete({ _id, user })`. -/
def deleteTask (store : Store) (requester : UserId) (id : IdParam) : Store × Response Unit :=
  match id with
  | .malformed => (store, .notFound)
  | .oid i =>
    match findOne store i requester with
    | none => (store, .notFound)
    | some _ => (removeFirst (ownedBy i requester) store, .ok ())

/-- `PATCH /api/tasks/:id/status`. The handler has no branch for a cast
error, so a malformed id ends in the generic status 500. -/
def setStatus (store : Store) (requester : UserId) (id : IdParam) (body : Body)
    (now : Date) : Store × Response (Option Task) :=
  let errors := statusValidators body
  if errors ≠ [] then (store, .badRequest errors)
  else
    match id with
    | .malformed => (store, .serverError)
    | .oid i =>
      match findOne store i requester with
      | none => (store, .notFound)
      | some task =>
        match Status.ofLabel (body.status.getD "") with
        | none => (store, .serverError)
        | some newStatus =>
          let saved := saveExisting store (task.updateStatus newStatus now) now
          (saved, .ok (saved.find? fun s => s.id == task.id))

/-! ## Regular expressions of the search clause

The search string is handed to the regular-expression engine of the store
(and to `new RegExp(search, 'i')` for the `tags` clause). The engine is not
part of the repository. Its behaviour is fixed here on the patterns made of
ordinary characters and parentheses, where a parenthesis only groups: such a
pattern is rejected when its parentheses do not balance, and otherwise it is
searched for, without its parentheses, at every position of the subject. The
case folding of the option `i` and the behaviour on every other pattern are
parameters. Resource limits of the engine (length of a pattern, depth of
nesting) are not modelled. -/

/-- Outcome of compiling a pattern. -/
inductive Compiled where
  | matcher (test : String → Bool)
  | invalid

/-- The parts of the regular-expression engine that are left open: the case
folding of caseless matching, and the treatment of patterns that use a
metacharacter other than a parenthesis. -/
structure RegexEnv where
  fold : Char → Char
  other : String → Compiled

/-- Characters with a special meaning in a pattern: backslash, `^ $ . * + ?`,
parentheses, brackets, braces and the bar. -/
def metaChars : List Char :=
  [Char.ofNat 92, '^', '$', '.', '*', '+', '?', '(', ')', '[', ']', '{', '}', '|']

/-- Characters that stand for themselves in a pattern. -/
def isPlainChar (c : Char) : Bool :=
  !metaChars.contains c && c.toNat != 0

/-- Balance of the parentheses of a pattern, `depth` groups being open. -/
def balanced : Nat → List Char → Bool
  | depth, [] => depth == 0
  | depth, c :: cs =>
    if c = '(' then balanced (depth + 1) cs
    else if c = ')' then
      match depth with
      | 0 => false
      | d + 1 => balanced d cs
    else balanced depth cs

/-- The characters a pattern of the fragment has to match, in order. -/
def literalsOf (cs : List Char) : List Char :=
  cs.filter fun c => c != '(' && c != ')'

/-- Match of the literals `pat` at the start of the subject, caseless. -/
def matchHere (fold : Char → Char) : List Char → List Char → Bool
  | [], _ => true
  | _ :: _, [] => false
  | p :: ps, c :: cs => fold p == fold c && matchHere fold ps cs

/-- Unanchored search: a match of `pat` at some position of the subject. -/
def matchAnywhere (fold : Char → Char) (pat : List Char) : List Char → Bool
  | [] => matchHere fold pat []
  | c :: cs => matchHere fold pat (c :: cs) || matchAnywhere fold pat cs

/-- Compilation of a pattern with the option `i`. -/
def compileRegex (env : RegexEnv) (pattern : String) : Compiled :=
  if pattern.data.all (fun c => isPlainChar c || c == '(' || c == ')') then
    if balanced 0 pattern.data then
      .matcher fun subject => matchAnywhere env.fold (literalsOf pattern.data) subject.data
    else .invalid
  else env.other pattern

/-! ## The list route (`GET /api/tasks`) -/

/-- Value of a numeric query parameter: text that is not an integer literal,
or an integer literal with its value. -/
inductive NumParam where
  | notInt
  | int (value : Int)
  deriving DecidableEq, Repr

/-- The query string of a list request. -/
structure Query where
  status : Option String
  priority : Option String
  sortBy : Option String
  sortOrder : Option String
  search : Option String
  page : Option NumParam
  limit : Option NumParam
  deriving DecidableEq, Repr

/-- The query string without parameters. -/
def Query.empty : Query :=
  ⟨none, none, none, none, none, none, none⟩

/-- Validators of the list route; one entry per failing parameter. -/
def listValidators (q : Query) : List String :=
  (match q.status with
    | none => []
    | some s => if isStatusLabel s then [] else ["status"])
    ++ (match q.priority with
        | none => []
        | some p => if isPriorityLabel p then [] else ["priority"])
    ++ (match q.sortBy with
        | none => []
        | some k =>
          if ["title", "dueDate", "priority", "status", "createdAt"].contains k then []
          else ["sortBy"])
    ++ (match q.sortOrder with
        | none => []
        | some o => if ["asc", "desc"].contains o then [] else ["sortOrder"])
    ++ (match q.page with
        | none => []
        | some .notInt => ["page"]
        | some (.int v) => if 1 ≤ v then [] else ["page"])
    ++ (match q.limit with
        | none => []
        | some .notInt => ["limit"]
        | some (.int v) => if 1 ≤ v ∧ v ≤ 100 then [] else ["limit"])

/-- Truthiness of an optional string: absent and empty strings are falsy. -/
def truthy (v : Option String) : Bool :=
  match v with
  | none => false
  | some s => s != ""

/-- The selection document built by the list route. `search` holds the
compiled pattern of the `$or` clause. -/
structure Filter where
  user : UserId
  status : Option String
  priority : Option String
  search : Option (String → Bool)

/-- Construction of the selection document; `none` when the pattern of the
search clause is rejected. -/
def buildFilter (env : RegexEnv) (requester : UserId) (q : Query) : Option Filter :=
  let filter : Filter := ⟨requester, none, none, none⟩
  let filter := if truthy q.status then { filter with status := q.status } else filter
  let filter := if truthy q.priority then { filter with priority := q.priority } else filter
  if truthy q.search then
    match compileRegex env (q.search.getD "") with
    | .matcher test => some { filter with search := some test }
    | .invalid => none
  else some filter

/-- The `$or` clause: the pattern matches the title, the description, or
some tag. -/
def searchMatches (test : String → Bool) (t : Task) : Bool :=
  test t.title || (t.description.map test).getD false || t.tags.any test

/-- Membership of a task in the selection of a filter. -/
def Filter.selects (f : Filter) (t : Task) : Bool :=
  t.user == f.user
    && (match f.status with
        | none => true
        | some s => t.status.label == s)
    && (match f.priority with
        | none => true
        | some p => t.priority.label == p)
    && (match f.search with
        | none => true
        | some test => searchMatches test t)

/-- Order of strings in the store: character by character, by code point. -/
def charsLe : List Char → List Char → Bool
  | [], _ => true
  | _ :: _, [] => false
  | a :: as, b :: bs => decide (a.toNat < b.toNat) || (a == b && charsLe as bs)

/-- Order of optional dates in the store: an absent value comes first. -/
def optDateLe : Option Date → Option Date → Bool
  | none, _ => true
  | some _, none => false
  | some a, some b => decide (a ≤ b)

/-- Ascending order of two tasks on the sort key `sortBy`. -/
def keyLe (sortBy : String) (a b : Task) : Bool :=
  if sortBy = "title" then charsLe a.title.data b.title.data
  else if sortBy = "dueDate" then optDateLe a.dueDate b.dueDate
  else if sortBy = "priority" then charsLe a.priority.label.data b.priority.label.data
  else if sortBy = "status" then charsLe a.status.label.data b.status.label.data
  else decide (a.createdAt ≤ b.createdAt)

/-- Insertion of a task into a list ordered by `le`, before the first task
that it precedes or ties with. -/
def insertSorted (le : Task → Task → Bool) (x : Task) : List Task → List Task
  | [] => [x]
  | y :: ys => if le x y then x :: y :: ys else y :: insertSorted le x ys

/-- Sort by `le`; tasks that tie keep their order in the collection. The
store leaves the order of ties open: this is one of the orders it may answer
with (see `SortedAnswer`). -/
def sortTasks (le : Task → Task → Bool) (l : List Task) : List Task :=
  l.foldr (insertSorted le) []

/-- The `sort` stage: direction `1` for `'asc'`, `-1` otherwise. -/
def sortStage (sortBy sortOrder : String) (l : List Task) : List Task :=
  if sortOrder = "asc" then sortTasks (keyLe sortBy) l
  else sortTasks (fun a b => keyLe sortBy b a) l

/-- The integer a numeric query parameter denotes, or its default when the
parameter is absent. This is the value as written in the request; the number
the handler computes with is `jsNumber` of it (see `listTasksFrom`). -/
def numOr (v : Option NumParam) (default : Int) : Int :=
  match v with
  | some (.int n) => n
  | _ => default

/-- The pagination summary of a list response. -/
structure Pagination where
  currentPage : Int
  totalPages : Int
  totalTasks : Int
  hasNext : Bool
  hasPrev : Bool
  deriving DecidableEq, Repr

/-- The body of a list response. -/
structure ListResult where
  tasks : List Task
  pagination : Pagination
  deriving DecidableEq, Repr

/-- `Math.ceil(total / limit)` for a positive `limit`, in integers. -/
def ceilDiv (total limit : Int) : Int :=
  (total + limit - 1) / limit

/-- `Task.find(filter)`: the selection, in the order of the collection. -/
def findAll (store : Store) (f : Filter) : List Task :=
  store.filter f.selects

/-- `Task.countDocuments(filter)`. -/
def countDocuments (store : Store) (f : Filter) : Int :=
  ((store.filter f.selects).length : Int)

/-- Number of documents the query skips: `(page - 1) * limit`. -/
def skipOf (q : Query) : Int :=
  (numOr q.page 1 - 1) * numOr q.limit 20

/-- `GET /api/tasks`, computed with exact integers and with the sort of
`sortStage`. The handler computes with doubles and leaves the order of ties
to the store (`listTasksFrom`); both give the same response when
`page * limit < 2^53` and the store answers with `sortStage`. -/
def listTasks (env : RegexEnv) (store : Store) (requester : UserId) (q : Query) :
    Response ListResult :=
  let errors := listValidators q
  if errors ≠ [] then .badRequest errors
  else
    let sortBy := q.sortBy.getD "createdAt"
    let sortOrder := q.sortOrder.getD "desc"
    let page := numOr q.page 1
    let limit := numOr q.limit 20
    match buildFilter env requester q with
    | none => .serverError
    | some filter =>
      let skip := (page - 1) * limit
      let tasks := ((sortStage sortBy sortOrder (findAll store filter)).drop skip.toNat).take
        limit.toNat
      let total := countDocuments store filter
      .ok
        { tasks := tasks
          pagination :=
            { currentPage := page
              totalPages := ceilDiv total limit
              totalTasks := total
              hasNext := decide (page * limit < total)
              hasPrev := decide (page > 1) } }

/-! ## Statistics (`GET /api/tasks/stats/overview`) -/

/-- The counters of the statistics response. -/
structure Stats where
  total : Nat
  completed : Nat
  pending : Nat
  inProgress : Nat
  cancelled : Nat
  urgent : Nat
  high : Nat
  overdue : Nat
  deriving DecidableEq, Repr

/-- The literal the route answers with when the aggregation yields no group. -/
def zeroStats : Stats :=
  ⟨0, 0, 0, 0, 0, 0, 0, 0⟩

/-- `{ $cond: [c, 1, 0] }`. -/
def cond01 (c : Bool) : Nat :=
  if c then 1 else 0

/-- The aggregation expression `{ $lt: ['$dueDate', now] }`. Aggregation
operators compare values of different types in the order of the store, in
which a missing value comes before every date: the expression is true for a
document without `dueDate`. -/
def aggLtDate (dueDate : Option Date) (now : Date) : Bool :=
  match dueDate with
  | none => true
  | some d => decide (d < now)

/-- The `$sum` accumulators of the `$group` stage, applied to one document. -/
def accumulate (now : Date) (acc : Stats) (t : Task) : Stats :=
  { total := acc.total + 1
    completed := acc.completed + cond01 (t.status.label == "completed")
    pending := acc.pending + cond01 (t.status.label == "pending")
    inProgress := acc.inProgress + cond01 (t.status.label == "in-progress")
    cancelled := acc.cancelled + cond01 (t.status.label == "cancelled")
    urgent := acc.urgent + cond01 (t.priority.label == "urgent")
    high := acc.high + cond01 (t.priority.label == "high")
    overdue := acc.overdue
      + cond01 (t.status.label != "completed" && aggLtDate t.dueDate now) }

/-- The pipeline `[{ $match: { user } }, { $group: { _id: null, ... } }]`: no
group when no document matches, one group otherwise. -/
def aggregateStats (store : Store) (requester : UserId) (now : Date) : List Stats :=
  match store.filter fun t => t.user == requester with
  | [] => []
  | docs => [docs.foldl (accumulate now) zeroStats]

/-- `GET /api/tasks/stats/overview`: `stats[0] || { total: 0, ... }`. -/
def statsOverview (store : Store) (requester : UserId) (now : Date) : Response Stats :=
  let stats := aggregateStats store requester now
  let result := match stats.head? with
    | some group => group
    | none => zeroStats
  .ok result

/-- The wording "status is not completed and dueDate is before now". -/
def OverdueSpec (now : Date) (t : Task) : Prop :=
  t.status ≠ .completed ∧ ∃ d, t.dueDate = some d ∧ d < now

instance (now : Date) (t : Task) : Decidable (OverdueSpec now t) := by
  unfold OverdueSpec
  cases t.dueDate with
  | none => exact isFalse (by simp)
  | some d =>
    exact decidable_of_iff (t.status ≠ .completed ∧ d < now) (by simp)

/-! ## Pages of a list request -/

/-- The pages `1, ..., k` one after the other. -/
def concatPages (page : Nat → List Task) : Nat → List Task
  | 0 => []
  | k + 1 => concatPages page k ++ page (k + 1)

/-! ## The auth context of the client (`contexts/AuthContext.js`) -/

/-- A user object of the client: its fields with their values. -/
abbrev Profile := List (String × String)

/-- State of the auth context. -/
structure AuthState where
  user : Option Profile
  token : Option String
  isAuthenticated : Bool
  loading : Bool
  deriving DecidableEq, Repr

/-- Actions of the auth reducer with their payloads. -/
inductive AuthAction where
  | setLoading (payload : Bool)
  | setUser (payload : Option Profile)
  | setToken (payload : Option String)
  | logout
  | updateProfile (payload : Profile)
  deriving DecidableEq, Repr

/-- The object `{ ...base, ...patch }`: the fields of `base`, with the value
of `patch` where it has the field, followed by the other fields of `patch`.
A `null` base contributes no field. -/
def spreadProfile (base : Option Profile) (patch : Profile) : Profile :=
  let fields := base.getD []
  fields.map (fun kv => (kv.1, (patch.lookup kv.1).getD kv.2))
    ++ patch.filter (fun kv => !(fields.map Prod.fst).contains kv.1)

/-- `initialState` of the auth context; the token is read from local storage. -/
def authInitialState (storedToken : Option String) : AuthState :=
  { user := none, token := storedToken, isAuthenticated := false, loading := true }

/-- `authReducer`. -/
def authReducer (state : AuthState) (action : AuthAction) : AuthState :=
  match action with
  | .setLoading payload => { state with loading := payload }
  | .setUser payload =>
    { state with user := payload, isAuthenticated := payload.isSome, loading := false }
  | .setToken payload => { state with token := payload }
  | .logout =>
    { state with user := none, token := none, isAuthenticated := false, loading := false }
  | .updateProfile payload => { state with user := some (spreadProfile state.user payload) }

/-- The flag `isAuthenticated` agrees with the presence of a user. -/
def AuthConsistent (s : AuthState) : Prop :=
  s.isAuthenticated = s.user.isSome

instance (s : AuthState) : Decidable (AuthConsistent s) := by
  unfold AuthConsistent; infer_instance

/-! ## The task context of the client (`contexts/TaskContext.js`) -/

/-- The `filters` of the task context. -/
structure TaskFilters where
  status : String
  priority : String
  deriving DecidableEq, Repr

/-- The `sort` of the task context. -/
structure SortState where
  sortBy : String
  sortOrder : String
  deriving DecidableEq, Repr

/-- State of the task context. -/
structure TaskState where
  tasks : List Task
  filters : TaskFilters
  sort : SortState
  search : String
  pagination : Pagination
  deriving DecidableEq, Repr

/-- Payload of `SET_FILTERS`: the keys it carries. -/
structure FiltersPatch where
  status : Option String
  priority : Option String
  deriving DecidableEq, Repr

/-- Payload of `SET_SORT`: the keys it carries. -/
structure SortPatch where
  sortBy : Option String
  sortOrder : Option String
  deriving DecidableEq, Repr

/-- Payload of `SET_PAGINATION`: the keys it carries. -/
structure PaginationPatch where
  currentPage : Option Int
  totalPages : Option Int
  totalTasks : Option Int
  hasNext : Option Bool
  hasPrev : Option Bool
  deriving DecidableEq, Repr

/-- The payload `{ currentPage: page }`. -/
def PaginationPatch.page (page : Int) : PaginationPatch :=
  ⟨some page, none, none, none, none⟩

/-- Actions of the task reducer with their payloads. -/
inductive TaskAction where
  | setTasks (payload : List Task)
  | addTask (payload : Task)
  | updateTask (payload : Task)
  | deleteTask (payload : TaskId)
  | setFilters (payload : FiltersPatch)
  | setSort (payload : SortPatch)
  | setSearch (payload : String)
  | setPagination (payload : PaginationPatch)
  deriving DecidableEq, Repr

/-- `initialState` of the task context. -/
def taskInitialState : TaskState :=
  { tasks := []
    filters := ⟨"", ""⟩
    sort := ⟨"createdAt", "desc"⟩
    search := ""
    pagination := ⟨1, 1, 0, false, false⟩ }

/-- `taskReducer`. -/
def taskReducer (state : TaskState) (action : TaskAction) : TaskState :=
  match action with
  | .setTasks payload => { state with tasks := payload }
  | .addTask payload => { state with tasks := payload :: state.tasks }
  | .updateTask payload =>
    { state with tasks := state.tasks.map fun task => if task.id = payload.id then payload else task }
  | .deleteTask payload =>
    { state with tasks := state.tasks.filter fun task => task.id != payload }
  | .setFilters payload =>
    { state with
      filters :=
        { status := payload.status.getD state.filters.status
          priority := payload.priority.getD state.filters.priority } }
  | .setSort payload =>
    { state with
      sort :=
        { sortBy := payload.sortBy.getD state.sort.sortBy
          sortOrder := payload.sortOrder.getD state.sort.sortOrder } }
  | .setSearch payload => { state with search := payload }
  | .setPagination payload =>
    { state with
      pagination :=
        { currentPage := payload.currentPage.getD state.pagination.currentPage
          totalPages := payload.totalPages.getD state.pagination.totalPages
          totalTasks := payload.totalTasks.getD state.pagination.totalTasks
          hasNext := payload.hasNext.getD state.pagination.hasNext
          hasPrev := payload.hasPrev.getD state.pagination.hasPrev } }

/-- The function `setFilters` of the context: two dispatches. -/
def setFilters (state : TaskState) (filters : FiltersPatch) : TaskState :=
  taskReducer (taskReducer state (.setFilters filters)) (.setPagination (.page 1))

/-- The function `setSort` of the context. -/
def setSort (state : TaskState) (sort : SortPatch) : TaskState :=
  taskReducer (taskReducer state (.setSort sort)) (.setPagination (.page 1))

/-- The function `setSearch` of the context. -/
def setSearch (state : TaskState) (search : String) : TaskState :=
  taskReducer (taskReducer state (.setSearch search)) (.setPagination (.page 1))

/-- The function `setPage` of the context. -/
def setPage (state : TaskState) (page : Int) : TaskState :=
  taskReducer state (.setPagination (.page page))

/-- The function `clearFilters` of the context: three dispatches. -/
def clearFilters (state : TaskState) : TaskState :=
  taskReducer
    (taskReducer (taskReducer state (.setFilters ⟨some "", some ""⟩)) (.setSearch ""))
    (.setPagination (.page 1))

/-- The query string `fetchTasks` builds from the state: filters and search
only when not empty, the sort always, the current page, and `limit = 20`. -/
def fetchQuery (state : TaskState) : Query :=
  { status := if state.filters.status != "" then some state.filters.status else none
    priority := if state.filters.priority != "" then some state.filters.priority else none
    sortBy := some state.sort.sortBy
    sortOrder := some state.sort.sortOrder
    search := if state.search != "" then some state.search else none
    page := some (.int state.pagination.currentPage)
    limit := some (.int 20) }

/-! ## The sort select of the task list (`components/Tasks/TaskList.js`) -/

/-- Options of the sort select. -/
inductive SortOption where
  | newestFirst
  | oldestFirst
  | dueDateEarliest
  | dueDateLatest
  | priorityHighToLow
  | priorityLowToHigh
  | titleAZ
  | titleZA
  deriving DecidableEq, Repr

/-- The `value` attribute of an option. -/
def SortOption.value : SortOption → String
  | .newestFirst => "createdAt-desc"
  | .oldestFirst => "createdAt-asc"
  | .dueDateEarliest => "dueDate-asc"
  | .dueDateLatest => "dueDate-desc"
  | .priorityHighToLow => "priority-desc"
  | .priorityLowToHigh => "priority-asc"
  | .titleAZ => "title-asc"
  | .titleZA => "title-desc"

/-- The text shown for an option. -/
def SortOption.text : SortOption → String
  | .newestFirst => "Newest First"
  | .oldestFirst => "Oldest First"
  | .dueDateEarliest => "Due Date (Earliest)"
  | .dueDateLatest => "Due Date (Latest)"
  | .priorityHighToLow => "Priority (High to Low)"
  | .priorityLowToHigh => "Priority (Low to High)"
  | .titleAZ => "Title A-Z"
  | .titleZA => "Title Z-A"

/-- `split('-')` on the characters of a string; `current` holds the piece
being read. -/
def splitDashFrom (current : List Char) : List Char → List String
  | [] => [String.mk current.reverse]
  | c :: cs =>
    if c = '-' then String.mk current.reverse :: splitDashFrom [] cs
    else splitDashFrom (c :: current) cs

/-- `value.split('-')`. -/
def splitDash (value : String) : List String :=
  splitDashFrom [] value.data

/-- The `onChange` handler of the select:
`const [sortBy, sortOrder] = value.split('-'); setSort({ sortBy, sortOrder })`.
Every option value has both pieces. -/
def selectSort (state : TaskState) (option : SortOption) : TaskState :=
  let pieces := splitDash option.value
  setSort state ⟨pieces[0]?, pieces[1]?⟩

/-- Severity of a priority: low, medium, high, urgent in increasing order. -/
def Priority.severity : Priority → Nat
  | .low => 0
  | .medium => 1
  | .high => 2
  | .urgent => 3

/-! ## The statistics of the dashboard (`components/Dashboard/Dashboard.js`) -/

/-- The `stats` state of the dashboard. -/
structure DashboardStats where
  total : Nat
  completed : Nat
  pending : Nat
  inProgress : Nat
  overdue : Nat
  urgent : Nat
  high : Nat
  deriving DecidableEq, Repr

/-- The initial `stats` state. -/
def dashboardInitialStats : DashboardStats :=
  ⟨0, 0, 0, 0, 0, 0, 0⟩

/-- The filter of the `overdue` counter of the dashboard. -/
def dashboardOverdue (now : Date) (task : Task) : Bool :=
  if task.status.label == "completed" || task.dueDate.isNone then false
  else
    match task.dueDate with
    | some d => decide (d < now)
    | none => false

/-- The object `taskStats` of the effect. -/
def computeTaskStats (now : Date) (tasks : List Task) : DashboardStats :=
  { total := tasks.length
    completed := (tasks.filter fun task => task.status.label == "completed").length
    pending := (tasks.filter fun task => task.status.label == "pending").length
    inProgress := (tasks.filter fun task => task.status.label == "in-progress").length
    overdue := (tasks.filter (dashboardOverdue now)).length
    urgent := (tasks.filter fun task => task.priority.label == "urgent").length
    high := (tasks.filter fun task => task.priority.label == "high").length }

/-- The effect on `[tasks]`: the new `stats` state after it ran for `tasks`,
`stats` being the state before. -/
def statsEffect (now : Date) (tasks : List Task) (stats : DashboardStats) : DashboardStats :=
  if tasks.length > 0 then computeTaskStats now tasks else stats

/-! ## Numbers of JavaScript

`page` and `limit` reach the handler as strings and are turned into numbers
by `parseInt` and by the arithmetic operators. A number is a double: an
integer below `2^53` is kept as it is, a larger one is rounded to 53
significant bits, and every arithmetic result is rounded in the same way.
A value that rounds to `2^1024` or more is `Infinity` in JavaScript; here it
stays a large integer, which compares with every count as `Infinity` does. -/

/-- Number of halvings that bring `n` below `2^53`, at most `fuel` of them. -/
def doubleExp : Nat → Nat → Nat
  | 0, _ => 0
  | fuel + 1, n => if n < 2 ^ 53 then 0 else doubleExp fuel (n / 2) + 1

/-- The double nearest to a natural number, a tie going to the even
significand. -/
def roundNat (n : Nat) : Nat :=
  let e := doubleExp 1024 n
  let q := n / 2 ^ e
  let r := n % 2 ^ e
  if 2 ^ e < 2 * r ∨ (2 * r = 2 ^ e ∧ q % 2 = 1) then (q + 1) * 2 ^ e else q * 2 ^ e

/-- The number that JavaScript holds for an integer value. -/
def jsNumber (n : Int) : Int :=
  if 0 ≤ n then (roundNat n.toNat : Int) else -(roundNat (-n).toNat : Int)

/-- Number of documents the query of the handler skips: `(page - 1) * limit`
on the numbers of JavaScript. -/
def skipDouble (q : Query) : Int :=
  jsNumber (jsNumber (jsNumber (numOr q.page 1) - 1) * jsNumber (numOr q.limit 20))

/-! ## Answers of the store to a sorted query

The store sorts on the one key of the request. Documents with equal keys
come in an order the store chooses, and it may choose differently for each
query, so the pages of a list are cut from answers that need not agree on
the ties. -/

/-- Order of two tasks under the sort of a request: ascending on the key for
`'asc'`, descending otherwise. -/
def sortLe (sortBy sortOrder : String) (a b : Task) : Bool :=
  if sortOrder = "asc" then keyLe sortBy a b else keyLe sortBy b a

/-- An answer the store may give to `find(filter).sort(sort)`: the selection,
in an order that is sorted on the key. -/
def SortedAnswer (sortBy sortOrder : String) (selection answer : List Task) : Prop :=
  answer.Perm selection ∧ answer.Pairwise (fun a b => sortLe sortBy sortOrder a b = true)

/-- No two different tasks of the list have the same value of the sort key. -/
def NoTies (sortBy : String) (l : List Task) : Prop :=
  ∀ a ∈ l, ∀ b ∈ l, keyLe sortBy a b = true → keyLe sortBy b a = true → a = b

/-- `GET /api/tasks` as the handler computes it. `answer` is the order in
which the store returns the selection for `find(filter).sort(sort)` of this
request; `skip` and `limit` cut the page from it. `page` and `limit` are
coerced to numbers where the handler uses them, `(page - 1) * limit` and
`page * limit` are rounded after each operation, and `currentPage` is
`parseInt(page)`. The count of documents arrives as a number. For a count
below `2^53` and a limit of at most 100 the rounding of `total / limit` never
reaches the integer below the quotient, so `Math.ceil(total / limit)` is the
exact ceiling, and `ceilDiv` stands for it.
`listTasks` is this route with exact integers and with the answer
`sortStage`. -/
def listTasksFrom (env : RegexEnv) (store : Store) (requester : UserId) (q : Query)
    (answer : List Task) : Response ListResult :=
  let errors := listValidators q
  if errors ≠ [] then .badRequest errors
  else
    let page := jsNumber (numOr q.page 1)
    let limit := jsNumber (numOr q.limit 20)
    match buildFilter env requester q with
    | none => .serverError
    | some filter =>
      let skip := jsNumber (jsNumber (page - 1) * limit)
      let tasks := (answer.drop skip.toNat).take limit.toNat
      let total := jsNumber (countDocuments store filter)
      .ok
        { tasks := tasks
          pagination :=
            { currentPage := page
              totalPages := ceilDiv total limit
              totalTasks := total
              hasNext := decide (jsNumber (page * limit) < total)
              hasPrev := decide (page > 1) } }

/-- The tasks of page `p` of a list request: the request with `page = p` and
all other parameters as given, answered from `answers p`, the answer of the
store to the query of that request; no task when the request is not answered
200. -/
def pageFrom (env : RegexEnv) (store : Store) (requester : UserId) (q : Query)
    (answers : Nat → List Task) (p : Nat) : List Task :=
  match listTasksFrom env store requester { q with page := some (.int p) } (answers p) with
  | .ok r => r.tasks
  | _ => []

/-! ## Invariants and sample data -/

/-- Identifiers are unique in the collection (the store enforces it on `_id`). -/
def UniqueIds (store : Store) : Prop :=
  (store.map Task.id).Nodup

instance (store : Store) : Decidable (UniqueIds store) := by
  unfold UniqueIds; infer_instance

/-- The flag `isCompleted` agrees with the status. -/
def FlagConsistent (t : Task) : Prop :=
  t.isCompleted = decide (t.status = .completed)

/-- The timestamp `completedAt` is present exactly for a completed task. -/
def CompletedAtConsistent (t : Task) : Prop :=
  t.completedAt.isSome = decide (t.status = .completed)

instance (t : Task) : Decidable (FlagConsistent t) := by
  unfold FlagConsistent; infer_instance

instance (t : Task) : Decidable (CompletedAtConsistent t) := by
  unfold CompletedAtConsistent; infer_instance

/-- A pending task of user 1, used in the examples below. -/
def sampleTask : Task :=
  { id := 7
    title := "Write spec"
    description := none
    status := .pending
    priority := .high
    dueDate := some 1000
    completedAt := none
    tags := ["docs"]
    user := 1
    isCompleted := false
    estimatedTime := none
    actualTime := none
    createdAt := 500
    updatedAt := 500 }

/-- The engine parameters used in the examples: ASCII case folding, and
every pattern outside the fragment rejected. -/
def sampleEnv : RegexEnv :=
  ⟨Char.toLower, fun _ => .invalid⟩

/-- A task of user 1 with the given id and title, created at time `id`. -/
def titled (id : TaskId) (title : String) : Task :=
  { sampleTask with id := id, title := title, createdAt := id }

/-- A task of user 1 titled `B`, created at the same instant as
`titled 1 "A"`. -/
def tiedTask : Task :=
  { titled 2 "B" with createdAt := 1 }

/-- Answers of the store to the queries of the pages of a list of
`titled 1 "A"` and `tiedTask` sorted on `createdAt`: the query of page 1 gets
`A` first, every other query gets `B` first. -/
def tiedAnswers (p : Nat) : List Task :=
  if p = 1 then [titled 1 "A", tiedTask] else [tiedTask, titled 1 "A"]

/-! ## The search clause in the words of the specification -/

/-- The wording "contains `s` as a substring, compared case-insensitively":
after case folding, the characters of `s` occur consecutively in `x`. -/
def ContainsCI (fold : Char → Char) (s x : String) : Prop :=
  s.data.map fold <:+: x.data.map fold

/-- The wording of the search contract: the title, the description, or at
least one tag contains the search string. -/
def SearchSpec (fold : Char → Char) (s : String) (t : Task) : Prop :=
  ContainsCI fold s t.title
    ∨ (∃ d, t.description = some d ∧ ContainsCI fold s d)
    ∨ ∃ tag ∈ t.tags, ContainsCI fold s tag

/-! ## Invalid list parameters in the words of the specification -/

/-- The parameter `status` is given and is outside its enumeration. -/
def StatusInvalid (q : Query) : Prop :=
  ∃ s, q.status = some s ∧ s ∉ ["pending", "in-progress", "completed", "cancelled"]

/-- The parameter `priority` is given and is outside its enumeration. -/
def PriorityInvalid (q : Query) : Prop :=
  ∃ p, q.priority = some p ∧ p ∉ ["low", "medium", "high", "urgent"]

/-- The parameter `sortBy` is given and is not a sort key. -/
def SortByInvalid (q : Query) : Prop :=
  ∃ k, q.sortBy = some k ∧ k ∉ ["title", "dueDate", "priority", "status", "createdAt"]

/-- The parameter `sortOrder` is given and is neither `asc` nor `desc`. -/
def SortOrderInvalid (q : Query) : Prop :=
  ∃ o, q.sortOrder = some o ∧ o ∉ ["asc", "desc"]

/-- The parameter `page` is given and is not an integer that is at least 1. -/
def PageInvalid (q : Query) : Prop :=
  q.page = some .notInt ∨ ∃ v, q.page = some (.int v) ∧ v < 1

/-- The parameter `limit` is given and is not an integer of `[1, 100]`. -/
def LimitInvalid (q : Query) : Prop :=
  q.limit = some .notInt ∨ ∃ v, q.limit = some (.int v) ∧ (v < 1 ∨ 100 < v)

/-! # Theorems -/

/-! ## Ownership scoping of the single-task routes -/

theorem findOne_eq_none_of_owner_ne (store : Store) (id : TaskId) (requester : UserId)
    (h : ∀ t ∈ store, t.id = id → t.user ≠ requester) :
    findOne store id requester = none := by
  unfold findOne
  rw [List.find?_eq_none]
  intro t ht hsel
  simp only [ownedBy, Bool.and_eq_true, beq_iff_eq] at hsel
  exact h t ht hsel.1 hsel.2

theorem owner_ne_of_unique {store : Store} (hu : UniqueIds store) {T : Task} (hT : T ∈ store)
    {requester : UserId} (hne : requester ≠ T.user) :
    ∀ t ∈ store, t.id = T.id → t.user ≠ requester := by
  intro t ht hid
  have : t = T := List.inj_on_of_nodup_map hu ht hT hid
  subst this
  exact fun h => hne h.symm

/-- C1. A user who is not the owner of a stored task gets status 404 from
`get` and from `delete`, from `update` with any body that passes validation,
and from `setStatus` with any status of the enumeration; whatever the body,
none of the four requests changes the collection, so the task is left as it
was. -/
theorem non_owner_gets_not_found (store : Store) (T : Task) (U : UserId)
    (hu : UniqueIds store) (hT : T ∈ store) (hne : U ≠ T.user) :
    getTask store U (.oid T.id) = .notFound
      ∧ deleteTask store U (.oid T.id) = (store, .notFound)
      ∧ (∀ (body : Body) (now : Date),
          (updateTask store U (.oid T.id) body now).1 = store
            ∧ (updateValidators body = [] → updateValid (sanitize body) = true →
                updateTask store U (.oid T.id) body now = (store, .notFound)))
      ∧ (∀ (body : Body) (now : Date),
          (setStatus store U (.oid T.id) body now).1 = store
            ∧ (statusValidators body = [] →
                setStatus store U (.oid T.id) body now = (store, .notFound))) := by
  have hnone : findOne store T.id U = none :=
    findOne_eq_none_of_owner_ne store T.id U (owner_ne_of_unique hu hT hne)
  refine ⟨?_, ?_, ?_, ?_⟩
  · simp [getTask, hnone]
  · simp [deleteTask, hnone]
  · intro body now
    constructor
    · simp only [updateTask, hnone]
      split_ifs <;> rfl
    · intro hvalid hschema
      simp [updateTask, hvalid, hschema, hnone]
  · intro body now
    constructor
    · simp only [setStatus, hnone]
      split_ifs <;> rfl
    · intro hstatus
      simp [setStatus, hstatus, hnone]

theorem non_owner_gets_not_found_witness :
    UniqueIds [sampleTask] ∧ sampleTask ∈ [sampleTask] ∧ (2 : UserId) ≠ sampleTask.user
      ∧ getTask [sampleTask] 2 (.oid sampleTask.id) = .notFound
      ∧ deleteTask [sampleTask] 2 (.oid sampleTask.id) = ([sampleTask], .notFound)
      ∧ (∀ (body : Body) (now : Date),
          (updateTask [sampleTask] 2 (.oid sampleTask.id) body now).1 = [sampleTask]
            ∧ (updateValidators body = [] → updateValid (sanitize body) = true →
                updateTask [sampleTask] 2 (.oid sampleTask.id) body now
                  = ([sampleTask], .notFound)))
      ∧ (∀ (body : Body) (now : Date),
          (setStatus [sampleTask] 2 (.oid sampleTask.id) body now).1 = [sampleTask]
            ∧ (statusValidators body = [] →
                setStatus [sampleTask] 2 (.oid sampleTask.id) body now
                  = ([sampleTask], .notFound))) :=
  ⟨by decide, by simp, by decide,
    non_owner_gets_not_found [sampleTask] sampleTask 2 (by decide) (by simp) (by decide)⟩

/-! ## Status changes -/

theorem Status.ofLabel_label (s : Status) : Status.ofLabel s.label = some s := by
  cases s <;> rfl

theorem find?_eq_some_of_unique {p : Task → Bool} {x : Task} :
    ∀ {l : List Task}, x ∈ l → p x = true → (∀ y ∈ l, p y = true → y = x) →
      l.find? p = some x
  | [], hx, _, _ => by simp at hx
  | y :: l, hx, hp, huniq => by
    by_cases hy : p y = true
    · have : y = x := huniq y (List.mem_cons_self _ _) hy
      simp [List.find?, this, hp]
    · have hx2 : x ∈ l := by
        rcases List.mem_cons.1 hx with h | h
        · exact absurd (h ▸ hp) hy
        · exact h
      have ih := find?_eq_some_of_unique hx2 hp
        (fun z hz hpz => huniq z (List.mem_cons_of_mem _ hz) hpz)
      simp [List.find?, hy, ih]

theorem findOne_owner {store : Store} (hu : UniqueIds store) {T : Task} (hT : T ∈ store) :
    findOne store T.id T.user = some T := by
  unfold findOne
  apply find?_eq_some_of_unique hT
  · simp [ownedBy]
  · intro y hy hsel
    simp only [ownedBy, Bool.and_eq_true, beq_iff_eq] at hsel
    exact List.inj_on_of_nodup_map hu hy hT hsel.1

theorem find?_id {store : Store} (hu : UniqueIds store) {T : Task} (hT : T ∈ store) :
    store.find? (fun s => s.id == T.id) = some T := by
  apply find?_eq_some_of_unique hT
  · simp
  · intro y hy hsel
    exact List.inj_on_of_nodup_map hu hy hT (by simpa using hsel)

theorem find?_replaceFirst (p : Task → Bool) (f : Task → Task)
    (hf : ∀ t, p t = true → p (f t) = true) :
    ∀ store : Store, (replaceFirst p f store).find? p = (store.find? p).map f
  | [] => rfl
  | t :: rest => by
    by_cases ht : p t = true
    · simp [replaceFirst, List.find?, ht, hf t ht]
    · simp [replaceFirst, List.find?, ht, find?_replaceFirst p f hf rest]

theorem updateStatus_id (T : Task) (s : Status) (now : Date) :
    (T.updateStatus s now).id = T.id := by
  unfold Task.updateStatus; split_ifs <;> rfl

theorem find?_saveExisting {store : Store} (hu : UniqueIds store) {T : Task} (hT : T ∈ store)
    (t1 : Task) (hid : t1.id = T.id) (now : Date) :
    (saveExisting store t1 now).find? (fun x => x.id == T.id)
      = some { t1 with updatedAt := now } := by
  have hp : (fun x : Task => x.id == t1.id) = (fun x : Task => x.id == T.id) := by
    funext x; rw [hid]
  unfold saveExisting
  rw [hp, find?_replaceFirst _ _ (by intro t _; simp [hid]) store, find?_id hu hT]
  rfl

/-- C2. `setStatus` by the owner with a status `s` of the enumeration answers
200 with the stored task, whose status is `s`; when `s` is `completed` the
task has `isCompleted = true` and `completedAt` set (to the current time), and
for every other status it has `isCompleted = false` and no `completedAt`. The
method `updateStatus` alone has the same effect on the three fields. -/
theorem setStatus_sets_derived_fields (store : Store) (T : Task) (s : Status) (body : Body)
    (now : Date) (hu : UniqueIds store) (hT : T ∈ store) (hbody : body.status = some s.label) :
    ∃ T1 : Task,
      setStatus store T.user (.oid T.id) body now
          = (saveExisting store (T.updateStatus s now) now, .ok (some T1))
        ∧ T1 ∈ saveExisting store (T.updateStatus s now) now
        ∧ T1.id = T.id
        ∧ T1.status = s
        ∧ (s = .completed → T1.isCompleted = true ∧ T1.completedAt = some now)
        ∧ (s ≠ .completed → T1.isCompleted = false ∧ T1.completedAt = none)
        ∧ (T.updateStatus s now).status = T1.status
        ∧ (T.updateStatus s now).isCompleted = T1.isCompleted
        ∧ (T.updateStatus s now).completedAt = T1.completedAt := by
  refine ⟨{ T.updateStatus s now with updatedAt := now }, ?_, ?_, ?_, ?_, ?_, ?_, rfl, rfl, rfl⟩
  · simp [setStatus, statusValidators, isStatusLabel, hbody, Status.ofLabel_label,
      findOne_owner hu hT, find?_saveExisting hu hT _ (updateStatus_id T s now) now]
  · exact List.mem_of_find?_eq_some
      (find?_saveExisting hu hT _ (updateStatus_id T s now) now)
  · unfold Task.updateStatus; split_ifs <;> rfl
  · unfold Task.updateStatus; split_ifs <;> rfl
  · intro hs; subst hs; simp [Task.updateStatus]
  · intro hs; simp [Task.updateStatus, hs]

theorem setStatus_sets_derived_fields_witness :
    UniqueIds [sampleTask] ∧ sampleTask ∈ [sampleTask]
      ∧ ∃ T1 : Task,
        setStatus [sampleTask] sampleTask.user (.oid sampleTask.id)
            { Body.empty with status := some "completed" } 2000
          = (saveExisting [sampleTask] (sampleTask.updateStatus .completed 2000) 2000,
              .ok (some T1))
        ∧ T1 ∈ saveExisting [sampleTask] (sampleTask.updateStatus .completed 2000) 2000
        ∧ T1.id = sampleTask.id
        ∧ T1.status = .completed
        ∧ (Status.completed = .completed → T1.isCompleted = true ∧ T1.completedAt = some 2000)
        ∧ (Status.completed ≠ .completed → T1.isCompleted = false ∧ T1.completedAt = none)
        ∧ (sampleTask.updateStatus .completed 2000).status = T1.status
        ∧ (sampleTask.updateStatus .completed 2000).isCompleted = T1.isCompleted
        ∧ (sampleTask.updateStatus .completed 2000).completedAt = T1.completedAt :=
  ⟨by decide, by simp,
    setStatus_sets_derived_fields [sampleTask] sampleTask .completed
      { Body.empty with status := some "completed" } 2000 (by decide) (by simp) rfl⟩

/-! ## Derived fields and ownership under `create` and `update` -/

theorem updateStatus_consistent (t : Task) (s : Status) (now : Date) :
    FlagConsistent (t.updateStatus s now) ∧ CompletedAtConsistent (t.updateStatus s now) := by
  by_cases hs : s = .completed
  · subst hs; simp [FlagConsistent, CompletedAtConsistent, Task.updateStatus]
  · simp [FlagConsistent, CompletedAtConsistent, Task.updateStatus, hs]

theorem markCompleted_consistent (t : Task) (now : Date) :
    FlagConsistent (t.markCompleted now) ∧ CompletedAtConsistent (t.markCompleted now) := by
  simp [FlagConsistent, CompletedAtConsistent, Task.markCompleted]

/-- C3. `PUT` with the body `{ status: 'completed' }` on a consistent pending
task is accepted and stores the status `completed` with `isCompleted` still
`false`; `POST` with `{ title: 'Done', status: 'completed' }` is accepted and
stores a completed task with `isCompleted = false`. The equation between
`isCompleted` and the status is therefore not kept by `update` and `create`. -/
theorem update_and_create_leave_isCompleted_stale :
    FlagConsistent sampleTask
      ∧ (∃ t : Task,
          updateTask [sampleTask] 1 (.oid 7) { Body.empty with status := some "completed" } 2000
              = ([t], .ok t)
            ∧ t.status = .completed ∧ t.isCompleted = false ∧ ¬ FlagConsistent t)
      ∧ (∃ t : Task,
          createTask [] 1 { Body.empty with title := some "Done", status := some "completed" }
              7 2000 = ([t], .created (some t))
            ∧ t.status = .completed ∧ t.isCompleted = false ∧ ¬ FlagConsistent t) := by
  refine ⟨by decide, ⟨applyUpdate { Body.empty with status := some "completed" } 2000 sampleTask,
    by decide, by decide, by decide, by decide⟩, ?_⟩
  refine ⟨{ id := 7, title := "Done", description := none, status := .completed,
            priority := .medium, dueDate := none, completedAt := none, tags := [], user := 1,
            isCompleted := false, estimatedTime := none, actualTime := none,
            createdAt := 2000, updatedAt := 2000 }, by decide, by decide, by decide, by decide⟩

/-- C4. `PUT` with the body `{ status: 'completed' }` on a consistent pending
task stores the status `completed` without any `completedAt`; `PUT` with
`{ status: 'pending' }` on a completed task keeps its `completedAt`; `POST`
with `{ title: 'Done', status: 'completed' }` stores a completed task without
`completedAt`. -/
theorem update_and_create_leave_completedAt_stale :
    CompletedAtConsistent sampleTask
      ∧ (∃ t : Task,
          updateTask [sampleTask] 1 (.oid 7) { Body.empty with status := some "completed" } 2000
              = ([t], .ok t)
            ∧ t.status = .completed ∧ t.completedAt = none ∧ ¬ CompletedAtConsistent t)
      ∧ CompletedAtConsistent (sampleTask.markCompleted 1500)
      ∧ (∃ t : Task,
          updateTask [sampleTask.markCompleted 1500] 1 (.oid 7)
              { Body.empty with status := some "pending" } 2000 = ([t], .ok t)
            ∧ t.status = .pending ∧ t.completedAt = some 1500 ∧ ¬ CompletedAtConsistent t)
      ∧ (∃ t : Task,
          createTask [] 1 { Body.empty with title := some "Done", status := some "completed" }
              7 2000 = ([t], .created (some t))
            ∧ t.status = .completed ∧ t.completedAt = none ∧ ¬ CompletedAtConsistent t) := by
  refine ⟨by decide, ⟨applyUpdate { Body.empty with status := some "completed" } 2000 sampleTask,
    by decide, by decide, by decide, by decide⟩, by decide,
    ⟨applyUpdate { Body.empty with status := some "pending" } 2000 (sampleTask.markCompleted 1500),
      by decide, by decide, by decide, by decide⟩, ?_⟩
  refine ⟨{ id := 7, title := "Done", description := none, status := .completed,
            priority := .medium, dueDate := none, completedAt := none, tags := [], user := 1,
            isCompleted := false, estimatedTime := none, actualTime := none,
            createdAt := 2000, updatedAt := 2000 }, by decide, by decide, by decide, by decide⟩

/-- C5. `PUT` by the owner (user 1) with the body `{ user: 2 }` passes the
validators, answers 200 and stores the task with owner 2: the owner of a
stored task is changed by `update`. Afterwards the former owner no longer
finds the task. -/
theorem update_changes_owner :
    updateValidators { Body.empty with user := some 2 } = []
      ∧ sampleTask.user = 1
      ∧ (∃ t : Task,
          updateTask [sampleTask] 1 (.oid 7) { Body.empty with user := some 2 } 2000
              = ([t], .ok t)
            ∧ t.id = sampleTask.id ∧ t.user = 2
            ∧ getTask [t] 1 (.oid 7) = .notFound ∧ getTask [t] 2 (.oid 7) = .ok t) := by
  refine ⟨by decide, by decide,
    ⟨applyUpdate { Body.empty with user := some 2 } 2000 sampleTask,
      by decide, by decide, by decide, by decide, by decide⟩⟩

theorem newDocument_user {data : Body} {newId : TaskId} {now : Date} {task : Task}
    (h : newDocument data newId now = some task) :
    data.user = some task.user ∧ task.id = newId := by
  unfold newDocument at h
  cases hs : statusOrDefault data.status <;> cases hp : priorityOrDefault data.priority
    <;> cases hu : data.user <;> simp only [hs, hp, hu] at h <;> try cases h
  split_ifs at h
  cases h
  exact ⟨rfl, rfl⟩

theorem find?_append_fresh (store : Store) (task : Task)
    (hfresh : store.any (fun s => s.id == task.id) = false) :
    (store ++ [task]).find? (fun s => s.id == task.id) = some task := by
  have hnone : store.find? (fun s => s.id == task.id) = none := by
    rw [List.find?_eq_none]
    intro x hx hsel
    have hall : ∀ y ∈ store, (y.id == task.id) = false := by
      simpa [List.any_eq_false] using hfresh
    rw [hall x hx] at hsel
    cases hsel
  simp [List.find?_append, hnone]

/-- C6. Whenever `create` accepts a request (status 201), whatever `user` the
body carries, exactly one task is appended to the collection, it is the task
returned, and its owner is the requester. -/
theorem create_assigns_requester (store : Store) (requester : UserId) (body : Body)
    (newId : TaskId) (now : Date)
    (h : (createTask store requester body newId now).2.code = 201) :
    ∃ task : Task,
      createTask store requester body newId now = (store ++ [task], .created (some task))
        ∧ task.user = requester ∧ task.id = newId := by
  unfold createTask at h ⊢
  simp only at h ⊢
  by_cases herr : createValidators body ≠ []
  · simp [herr, Response.code] at h
  · simp only [herr, if_false] at h ⊢
    cases hdoc : newDocument { sanitize body with user := some requester } newId now with
    | none => simp [hdoc, Response.code] at h
    | some task =>
      simp only [hdoc] at h ⊢
      obtain ⟨huser, hid⟩ := newDocument_user hdoc
      by_cases hdup : store.any (fun s => s.id == newId) = true
      · simp [hdup, Response.code] at h
      · have hfresh : store.any (fun s => s.id == task.id) = false := by
          rw [hid]; simpa using hdup
        refine ⟨task, ?_, ?_, hid⟩
        · simp only [hdup]
          rw [find?_append_fresh store task hfresh]
          rfl
        · simpa using huser.symm

theorem create_assigns_requester_witness :
    (createTask [sampleTask] 1
        { Body.empty with title := some "Plan", user := some 99 } 8 2000).2.code = 201
      ∧ ∃ task : Task,
        createTask [sampleTask] 1 { Body.empty with title := some "Plan", user := some 99 } 8 2000
            = ([sampleTask] ++ [task], .created (some task))
          ∧ task.user = 1 ∧ task.id = 8 :=
  ⟨by decide,
    create_assigns_requester [sampleTask] 1
      { Body.empty with title := some "Plan", user := some 99 } 8 2000 (by decide)⟩

/-! ## The selection of the list route -/

theorem mem_insertSorted (le : Task → Task → Bool) (x t : Task) :
    ∀ l : List Task, t ∈ insertSorted le x l ↔ t = x ∨ t ∈ l
  | [] => by simp [insertSorted]
  | y :: ys => by
    unfold insertSorted
    split_ifs
    · simp
    · simp only [List.mem_cons, mem_insertSorted le x t ys]
      tauto

theorem mem_sortTasks (le : Task → Task → Bool) (t : Task) :
    ∀ l : List Task, t ∈ sortTasks le l ↔ t ∈ l
  | [] => by simp [sortTasks]
  | y :: ys => by
    have ih := mem_sortTasks le t ys
    unfold sortTasks at ih ⊢
    simp only [List.foldr_cons, mem_insertSorted, ih, List.mem_cons]

theorem mem_sortStage (sortBy sortOrder : String) (t : Task) (l : List Task) :
    t ∈ sortStage sortBy sortOrder l ↔ t ∈ l := by
  unfold sortStage
  split_ifs <;> exact mem_sortTasks _ t l

theorem buildFilter_user {env : RegexEnv} {requester : UserId} {q : Query} {f : Filter}
    (h : buildFilter env requester q = some f) : f.user = requester := by
  unfold buildFilter at h
  simp only at h
  split_ifs at h <;> first
    | (cases h; rfl)
    | (split at h
       · cases h; rfl
       · cases h)

theorem selects_user {f : Filter} {t : Task} (h : f.selects t = true) : t.user = f.user := by
  unfold Filter.selects at h
  simp only [Bool.and_eq_true, beq_iff_eq] at h
  exact h.1.1.1

theorem listTasks_ok {env : RegexEnv} {store : Store} {requester : UserId} {q : Query}
    {f : Filter} (hval : listValidators q = []) (hf : buildFilter env requester q = some f) :
    listTasks env store requester q = .ok
      { tasks := ((sortStage (q.sortBy.getD "createdAt") (q.sortOrder.getD "desc")
          (findAll store f)).drop (skipOf q).toNat).take (numOr q.limit 20).toNat
        pagination :=
          { currentPage := numOr q.page 1
            totalPages := ceilDiv (countDocuments store f) (numOr q.limit 20)
            totalTasks := countDocuments store f
            hasNext := decide (numOr q.page 1 * numOr q.limit 20 < countDocuments store f)
            hasPrev := decide (numOr q.page 1 > 1) } } := by
  simp [listTasks, hval, hf, skipOf]

theorem listTasks_ok_inv {env : RegexEnv} {store : Store} {requester : UserId} {q : Query}
    {r : ListResult} (h : listTasks env store requester q = .ok r) :
    listValidators q = [] ∧ ∃ f, buildFilter env requester q = some f := by
  unfold listTasks at h
  simp only at h
  by_cases hval : listValidators q = []
  · refine ⟨hval, ?_⟩
    cases hf : buildFilter env requester q with
    | none => simp [hval, hf] at h
    | some f => exact ⟨f, rfl⟩
  · simp [hval] at h

/-- C7. The selection document of every list request names the requester as
`user`, whatever the query parameters, and no clause replaces it: every task
a filter selects is owned by the requester. Hence every task of a returned
page is a stored task of the requester, and `totalTasks` counts stored tasks
of the requester only. -/
theorem list_scoped_to_requester (env : RegexEnv) (store : Store) (requester : UserId)
    (q : Query) (r : ListResult) (h : listTasks env store requester q = .ok r) :
    ∃ f : Filter, buildFilter env requester q = some f
      ∧ f.user = requester
      ∧ (∀ t : Task, f.selects t = true → t.user = requester)
      ∧ (∀ t ∈ r.tasks, t ∈ store ∧ t.user = requester)
      ∧ r.pagination.totalTasks
          = (((store.filter fun t => t.user == requester).filter f.selects).length : Int) := by
  obtain ⟨hval, f, hf⟩ := listTasks_ok_inv h
  have huser := buildFilter_user hf
  have hsel : ∀ t : Task, f.selects t = true → t.user = requester :=
    fun t ht => (selects_user ht).trans huser
  rw [listTasks_ok hval hf] at h
  cases h
  refine ⟨f, hf, huser, hsel, ?_, ?_⟩
  · intro t ht
    have h1 := List.mem_of_mem_drop (List.mem_of_mem_take ht)
    rw [mem_sortStage] at h1
    unfold findAll at h1
    obtain ⟨hmem, hs⟩ := List.mem_filter.1 h1
    exact ⟨hmem, hsel t hs⟩
  · simp only [countDocuments, List.filter_filter]
    congr 2
    apply List.filter_congr
    intro t _
    by_cases hs : f.selects t = true
    · simp [hs, hsel t hs]
    · simp [hs]

theorem list_scoped_to_requester_witness :
    listTasks sampleEnv [titled 1 "C", { titled 2 "A" with user := 5 }] 1
        { Query.empty with search := some "(a)" }
        = .ok ⟨[], ⟨1, 0, 0, false, false⟩⟩
      ∧ ∃ f : Filter,
        buildFilter sampleEnv 1 { Query.empty with search := some "(a)" } = some f
          ∧ f.user = 1
          ∧ (∀ t : Task, f.selects t = true → t.user = 1)
          ∧ (∀ t ∈ ([] : List Task),
              t ∈ [titled 1 "C", { titled 2 "A" with user := 5 }] ∧ t.user = 1)
          ∧ (0 : Int) = ((([titled 1 "C", { titled 2 "A" with user := 5 }].filter
              fun t => t.user == 1).filter f.selects).length : Int) :=
  ⟨by decide,
    list_scoped_to_requester sampleEnv [titled 1 "C", { titled 2 "A" with user := 5 }] 1
      { Query.empty with search := some "(a)" } ⟨[], ⟨1, 0, 0, false, false⟩⟩ (by decide)⟩

theorem isStatusLabel_ne_empty {s : String} (h : isStatusLabel s = true) : s ≠ "" := by
  rintro rfl
  exact absurd h (by decide)

theorem isPriorityLabel_ne_empty {s : String} (h : isPriorityLabel s = true) : s ≠ "" := by
  rintro rfl
  exact absurd h (by decide)

theorem matchAnywhere_nil (fold : Char → Char) (cs : List Char) :
    matchAnywhere fold [] cs = true := by
  cases cs <;> simp [matchAnywhere, matchHere]

theorem compileRegex_empty (env : RegexEnv) :
    compileRegex env "" = .matcher fun subject => matchAnywhere env.fold [] subject.data := by
  simp [compileRegex, balanced, literalsOf]

theorem validated_status {q : Query} (hval : listValidators q = []) :
    q.status = none ∨ ∃ s, q.status = some s ∧ s ≠ "" := by
  cases hs : q.status with
  | none => exact Or.inl rfl
  | some s =>
    right
    refine ⟨s, rfl, ?_⟩
    by_cases hl : isStatusLabel s = true
    · exact isStatusLabel_ne_empty hl
    · simp [listValidators, hs, hl] at hval

theorem validated_priority {q : Query} (hval : listValidators q = []) :
    q.priority = none ∨ ∃ s, q.priority = some s ∧ s ≠ "" := by
  cases hs : q.priority with
  | none => exact Or.inl rfl
  | some s =>
    right
    refine ⟨s, rfl, ?_⟩
    by_cases hl : isPriorityLabel s = true
    · exact isPriorityLabel_ne_empty hl
    · simp [listValidators, hs, hl] at hval

/-- Shape of the selection document of a validated request. -/
theorem buildFilter_shape {env : RegexEnv} {requester : UserId} {q : Query} {f : Filter}
    (hval : listValidators q = []) (hf : buildFilter env requester q = some f) :
    f.user = requester ∧ f.status = q.status ∧ f.priority = q.priority
      ∧ ((truthy q.search = false ∧ f.search = none)
          ∨ (truthy q.search = true
              ∧ ∃ test, compileRegex env (q.search.getD "") = .matcher test
                ∧ f.search = some test)) := by
  have hst : (if truthy q.status then q.status else none) = q.status := by
    rcases validated_status hval with h | ⟨s, h, hne⟩
    · simp [h, truthy]
    · simp [h, truthy, hne]
  have hpr : (if truthy q.priority then q.priority else none) = q.priority := by
    rcases validated_priority hval with h | ⟨s, h, hne⟩
    · simp [h, truthy]
    · simp [h, truthy, hne]
  unfold buildFilter at hf
  simp only at hf
  by_cases hsearch : truthy q.search = true
  · simp only [hsearch, if_true] at hf
    cases hc : compileRegex env (q.search.getD "") with
    | invalid => simp [hc] at hf
    | matcher test =>
      simp only [hc, Option.some.injEq] at hf
      subst hf
      refine ⟨?_, ?_, ?_, Or.inr ⟨hsearch, test, rfl, rfl⟩⟩
      · split_ifs <;> rfl
      · rw [← hst]; split_ifs <;> rfl
      · rw [← hpr]; split_ifs <;> rfl
  · simp only [hsearch, Bool.false_eq_true, if_false, Option.some.injEq] at hf
    subst hf
    refine ⟨?_, ?_, ?_, Or.inl ⟨by simpa using hsearch, ?_⟩⟩
    · split_ifs <;> rfl
    · rw [← hst]; split_ifs <;> rfl
    · rw [← hpr]; split_ifs <;> rfl
    · split_ifs <;> rfl

theorem status_clause (v : Option String) (t : Task) :
    (match v with
      | none => true
      | some s => t.status.label == s) = true ↔ v = none ∨ v = some t.status.label := by
  cases v with
  | none => simp
  | some s =>
    simp only [beq_iff_eq, false_or, Option.some.injEq, reduceCtorEq]
    exact eq_comm

theorem priority_clause (v : Option String) (t : Task) :
    (match v with
      | none => true
      | some s => t.priority.label == s) = true ↔ v = none ∨ v = some t.priority.label := by
  cases v with
  | none => simp
  | some s =>
    simp only [beq_iff_eq, false_or, Option.some.injEq, reduceCtorEq]
    exact eq_comm

theorem search_clause {env : RegexEnv} {q : Query} {f : Filter}
    (hshape : (truthy q.search = false ∧ f.search = none)
      ∨ (truthy q.search = true
          ∧ ∃ test, compileRegex env (q.search.getD "") = .matcher test ∧ f.search = some test))
    (t : Task) :
    (match f.search with
      | none => true
      | some test => searchMatches test t) = true
      ↔ ∀ s, q.search = some s →
          ∃ test, compileRegex env s = .matcher test ∧ searchMatches test t = true := by
  rcases hshape with ⟨hfalse, hnone⟩ | ⟨_, test, hc, hsome⟩
  · rw [hnone]
    simp only [true_iff]
    intro s hs
    have hs2 : s = "" := by
      by_contra hne
      simp [truthy, hs, hne] at hfalse
    subst hs2
    refine ⟨_, compileRegex_empty env, ?_⟩
    simp [searchMatches, matchAnywhere_nil]
  · rw [hsome]
    constructor
    · intro hm s hs
      refine ⟨test, ?_, hm⟩
      rw [← hc, hs]; rfl
    · intro h
      cases hq : q.search with
      | none => simp [truthy, hq] at *
      | some s =>
        obtain ⟨test2, hc2, hm⟩ := h s hq
        rw [hq] at hc
        simp only [Option.getD_some] at hc
        rw [hc] at hc2
        cases hc2
        exact hm

/-- C8. For a validated list request whose filter is built, a task of the
requester is selected iff the `status` parameter is absent or is the status of
the task, and the `priority` parameter is absent or is the priority of the
task, and, when a `search` parameter is given, its pattern matches the task.
Every task of a returned page is selected; with `status` and `priority` both
given each returned task has both values, and with `status = 'completed'`
each returned task is completed. -/
theorem selection_is_conjunction (env : RegexEnv) (requester : UserId) (q : Query)
    (f : Filter) (hval : listValidators q = []) (hf : buildFilter env requester q = some f) :
    (∀ t : Task, t.user = requester →
        (f.selects t = true ↔
          (q.status = none ∨ q.status = some t.status.label)
            ∧ (q.priority = none ∨ q.priority = some t.priority.label)
            ∧ (∀ s, q.search = some s →
                ∃ test, compileRegex env s = .matcher test ∧ searchMatches test t = true)))
      ∧ (∀ (store : Store) (r : ListResult), listTasks env store requester q = .ok r →
          ∀ t ∈ r.tasks, f.selects t = true
            ∧ (∀ s, q.status = some s → t.status.label = s)
            ∧ (∀ p, q.priority = some p → t.priority.label = p)
            ∧ (q.status = some "completed" → t.status = .completed)) := by
  obtain ⟨huser, hst, hpr, hsearch⟩ := buildFilter_shape hval hf
  have hiff : ∀ t : Task, t.user = requester →
      (f.selects t = true ↔
        (q.status = none ∨ q.status = some t.status.label)
          ∧ (q.priority = none ∨ q.priority = some t.priority.label)
          ∧ (∀ s, q.search = some s →
              ∃ test, compileRegex env s = .matcher test ∧ searchMatches test t = true)) := by
    intro t ht
    unfold Filter.selects
    simp only [Bool.and_eq_true, beq_iff_eq]
    rw [search_clause hsearch t, hst, hpr, status_clause, priority_clause, huser]
    constructor
    · rintro ⟨⟨⟨_, h1⟩, h2⟩, h3⟩
      exact ⟨h1, h2, h3⟩
    · rintro ⟨h1, h2, h3⟩
      exact ⟨⟨⟨ht, h1⟩, h2⟩, h3⟩
  refine ⟨hiff, ?_⟩
  intro store r hr t ht
  rw [listTasks_ok hval hf] at hr
  cases hr
  have h1 := List.mem_of_mem_drop (List.mem_of_mem_take ht)
  rw [mem_sortStage] at h1
  have hsel : f.selects t = true := (List.mem_filter.1 h1).2
  have howner : t.user = requester := (selects_user hsel).trans huser
  obtain ⟨h1, h2, _⟩ := (hiff t howner).1 hsel
  refine ⟨hsel, ?_, ?_, ?_⟩
  · intro s hs
    rw [hs] at h1
    have h3 : s = t.status.label := by simpa using h1
    exact h3.symm
  · intro p hp
    rw [hp] at h2
    have h3 : p = t.priority.label := by simpa using h2
    exact h3.symm
  · intro hs
    rw [hs] at h1
    have hl : "completed" = t.status.label := by simpa using h1
    revert hl
    cases t.status <;> decide

theorem selection_is_conjunction_witness :
    listValidators { Query.empty with status := some "pending", priority := some "high" } = []
      ∧ (∀ t : Task, t.user = 1 →
        (Filter.selects ⟨1, some "pending", some "high", none⟩ t = true ↔
          ((some "pending" : Option String) = none ∨ some "pending" = some t.status.label)
            ∧ ((some "high" : Option String) = none ∨ some "high" = some t.priority.label)
            ∧ (∀ s, (none : Option String) = some s →
                ∃ test, compileRegex sampleEnv s = .matcher test
                  ∧ searchMatches test t = true)))
      ∧ (∀ (store : Store) (r : ListResult),
          listTasks sampleEnv store 1
              { Query.empty with status := some "pending", priority := some "high" } = .ok r →
          ∀ t ∈ r.tasks, Filter.selects ⟨1, some "pending", some "high", none⟩ t = true
            ∧ (∀ s, some "pending" = some s → t.status.label = s)
            ∧ (∀ p, some "high" = some p → t.priority.label = p)
            ∧ ((some "pending" : Option String) = some "completed" → t.status = .completed)) :=
  ⟨by decide,
    selection_is_conjunction sampleEnv 1
      { Query.empty with status := some "pending", priority := some "high" }
      ⟨1, some "pending", some "high", none⟩ (by decide) rfl⟩

/-! ## The search clause -/

theorem matchHere_iff (fold : Char → Char) :
    ∀ pat subject : List Char,
      matchHere fold pat subject = true ↔ pat.map fold <+: subject.map fold
  | [], subject => by simp [matchHere]
  | p :: ps, [] => by simp [matchHere]
  | p :: ps, c :: cs => by
    simp [matchHere, matchHere_iff fold ps cs]

theorem matchAnywhere_iff (fold : Char → Char) (pat : List Char) :
    ∀ subject : List Char,
      matchAnywhere fold pat subject = true ↔ pat.map fold <:+: subject.map fold
  | [] => by
    simp only [matchAnywhere, matchHere_iff, List.map_nil, List.prefix_nil, List.infix_nil]
  | c :: cs => by
    simp only [matchAnywhere, Bool.or_eq_true, matchHere_iff, matchAnywhere_iff fold pat cs,
      List.map_cons, List.infix_cons_iff]

theorem plain_not_paren {c : Char} (h : isPlainChar c = true) : c ≠ '(' ∧ c ≠ ')' := by
  constructor <;> rintro rfl <;> exact absurd h (by decide)

theorem balanced_of_plain :
    ∀ (cs : List Char) (depth : Nat), cs.all isPlainChar = true →
      balanced depth cs = (depth == 0)
  | [], _, _ => rfl
  | c :: cs, depth, h => by
    simp only [List.all_cons, Bool.and_eq_true] at h
    obtain ⟨h1, h2⟩ := plain_not_paren h.1
    simp [balanced, h1, h2, balanced_of_plain cs depth h.2]

theorem literalsOf_of_plain :
    ∀ cs : List Char, cs.all isPlainChar = true → literalsOf cs = cs
  | [], _ => rfl
  | c :: cs, h => by
    simp only [List.all_cons, Bool.and_eq_true] at h
    obtain ⟨h1, h2⟩ := plain_not_paren h.1
    have ih := literalsOf_of_plain cs h.2
    unfold literalsOf at ih ⊢
    simp [List.filter_cons, h1, h2, ih]

theorem compileRegex_plain (env : RegexEnv) (s : String) (h : s.data.all isPlainChar = true) :
    compileRegex env s = .matcher fun subject => matchAnywhere env.fold s.data subject.data := by
  have hall : s.data.all (fun c => isPlainChar c || c == '(' || c == ')') = true := by
    rw [List.all_eq_true] at h ⊢
    intro c hc
    simp [h c hc]
  unfold compileRegex
  rw [if_pos hall, balanced_of_plain s.data 0 h, literalsOf_of_plain s.data h]
  rfl

theorem searchMatches_iff (fold : Char → Char) (s : String) (t : Task) :
    searchMatches (fun subject => matchAnywhere fold s.data subject.data) t = true
      ↔ SearchSpec fold s t := by
  unfold searchMatches SearchSpec ContainsCI
  simp only [Bool.or_eq_true, matchAnywhere_iff, List.any_eq_true, or_assoc]
  refine or_congr Iff.rfl (or_congr ?_ Iff.rfl)
  cases t.description with
  | none => simp
  | some d => simp [matchAnywhere_iff]

/-- C9, as stated, fails. The search string `(a)` is not empty and is a
pattern whose parentheses only group, so the task titled `A` is the result
of the list request, although neither its title nor its tag `docs` contains
the three characters `(a)`, and it has no description. -/
theorem search_pattern_selects_without_substring :
    "(a)" ≠ ""
      ∧ listTasks sampleEnv [titled 2 "A"] 1 { Query.empty with search := some "(a)" }
          = .ok ⟨[titled 2 "A"], ⟨1, 1, 1, false, false⟩⟩
      ∧ (titled 2 "A").user = 1
      ∧ ¬ SearchSpec sampleEnv.fold "(a)" (titled 2 "A") := by
  refine ⟨by decide, by decide, by decide, ?_⟩
  unfold SearchSpec ContainsCI
  simp only [titled, sampleTask, List.mem_singleton, exists_eq_left, reduceCtorEq, false_and,
    exists_false, false_or, not_or]
  constructor <;> decide

/-- C9, amended. For a search string that is not empty and consists of
ordinary characters only (no backslash, `^ $ . * + ? ( ) [ ] { } |`, no NUL),
the filter of a request with that search string and without `status` and
`priority` is built, and it selects a task iff the task is owned by the
requester and its title, its description, or at least one of its tags
contains the string as a substring, compared after case folding. -/
theorem search_plain_selects_substring (env : RegexEnv) (requester : UserId) (q : Query)
    (s : String) (hq : q.search = some s) (hne : s ≠ "")
    (hplain : s.data.all isPlainChar = true) (hst : q.status = none)
    (hpr : q.priority = none) :
    ∃ f : Filter, buildFilter env requester q = some f
      ∧ ∀ t : Task, f.selects t = true ↔ t.user = requester ∧ SearchSpec env.fold s t := by
  refine ⟨⟨requester, none, none,
    some fun subject => matchAnywhere env.fold s.data subject.data⟩, ?_, ?_⟩
  · simp [buildFilter, hq, hst, hpr, truthy, hne, compileRegex_plain env s hplain]
  · intro t
    simp only [Filter.selects, Bool.and_true, Bool.and_eq_true, beq_iff_eq,
      searchMatches_iff]

theorem search_plain_selects_substring_witness :
    ({ Query.empty with search := some "Alpha" } : Query).search = some "Alpha"
      ∧ "Alpha" ≠ ""
      ∧ ∃ f : Filter,
        buildFilter sampleEnv 1 { Query.empty with search := some "Alpha" } = some f
          ∧ ∀ t : Task,
            f.selects t = true ↔ t.user = 1 ∧ SearchSpec sampleEnv.fold "Alpha" t :=
  ⟨rfl, by decide,
    search_plain_selects_substring sampleEnv 1 { Query.empty with search := some "Alpha" }
      "Alpha" rfl (by decide) (by decide) rfl rfl⟩

/-! ## Numbers of JavaScript -/

theorem doubleExp_small (fuel n : Nat) (h : n < 2 ^ 53) : doubleExp fuel n = 0 := by
  cases fuel with
  | zero => rfl
  | succ k => rw [doubleExp, if_pos h]

theorem roundNat_small (n : Nat) (h : n < 2 ^ 53) : roundNat n = n := by
  unfold roundNat
  rw [doubleExp_small 1024 n h]
  simp [Nat.mod_one]

theorem jsNumber_small (n : Int) (h0 : 0 ≤ n) (h : n < 2 ^ 53) : jsNumber n = n := by
  unfold jsNumber
  have hn : n.toNat < 2 ^ 53 := by
    have : ((n.toNat : Nat) : Int) = n := Int.toNat_of_nonneg h0
    norm_num at h ⊢
    omega
  rw [if_pos h0, roundNat_small n.toNat hn]
  exact Int.toNat_of_nonneg h0

theorem div_doubleExp_ge :
    ∀ fuel n : Nat, 2 ^ 52 ≤ n → 2 ^ 52 ≤ n / 2 ^ doubleExp fuel n
  | 0, n, h => by simpa [doubleExp] using h
  | fuel + 1, n, h => by
    unfold doubleExp
    split_ifs with hn
    · simpa using h
    · have h2 : 2 ^ 52 ≤ n / 2 := by
        norm_num at hn h ⊢
        omega
      have ih := div_doubleExp_ge fuel (n / 2) h2
      have e : n / 2 ^ (doubleExp fuel (n / 2) + 1) = n / 2 / 2 ^ doubleExp fuel (n / 2) := by
        rw [Nat.div_div_eq_div_mul, pow_succ, Nat.mul_comm]
      rw [e]
      exact ih

theorem doubleExp_pos (n : Nat) (h : 2 ^ 53 ≤ n) : 1 ≤ doubleExp 1024 n := by
  show 1 ≤ doubleExp (1023 + 1) n
  unfold doubleExp
  rw [if_neg (Nat.not_lt.2 h)]
  exact Nat.le_add_left 1 _

theorem roundNat_large (n : Nat) (h : 2 ^ 53 ≤ n) : 2 ^ 53 ≤ roundNat n := by
  have he := doubleExp_pos n h
  have hq := div_doubleExp_ge 1024 n (le_trans (by norm_num) h)
  unfold roundNat
  simp only []
  generalize doubleExp 1024 n = e at he hq ⊢
  have hpow : 2 ≤ 2 ^ e := by
    calc 2 = 2 ^ 1 := rfl
      _ ≤ 2 ^ e := Nat.pow_le_pow_right (by norm_num) he
  have hmul : 2 ^ 53 ≤ n / 2 ^ e * 2 ^ e := by
    calc 2 ^ 53 = 2 ^ 52 * 2 := by norm_num
      _ ≤ n / 2 ^ e * 2 ^ e := Nat.mul_le_mul hq hpow
  split_ifs
  · exact le_trans hmul (Nat.mul_le_mul_right _ (Nat.le_succ _))
  · exact hmul

theorem jsNumber_large (n : Int) (h : 2 ^ 53 ≤ n) : 2 ^ 53 ≤ jsNumber n := by
  have h0 : 0 ≤ n := le_trans (by norm_num) h
  have hn : 2 ^ 53 ≤ n.toNat := by
    have : ((n.toNat : Nat) : Int) = n := Int.toNat_of_nonneg h0
    norm_num at h ⊢
    omega
  unfold jsNumber
  rw [if_pos h0]
  exact_mod_cast roundNat_large n.toNat hn

theorem jsNumber_mul_lt_iff (p L N : Int) (hp : 1 ≤ p) (hL1 : 1 ≤ L) (hL2 : L ≤ 100)
    (hN : N < 2 ^ 53) : jsNumber (jsNumber p * jsNumber L) < N ↔ p * L < N := by
  have hLs : jsNumber L = L := jsNumber_small L (by omega) (by norm_num; omega)
  rw [hLs]
  have hpl : p ≤ p * L := by nlinarith
  by_cases hs : p * L < 2 ^ 53
  · rw [jsNumber_small p (by omega) (lt_of_le_of_lt hpl hs),
      jsNumber_small (p * L) (by nlinarith) hs]
  · have h1 : (2 : Int) ^ 53 ≤ jsNumber p * L := by
      by_cases hps : p < 2 ^ 53
      · rw [jsNumber_small p (by omega) hps]
        exact not_lt.1 hs
      · have h3 := jsNumber_large p (not_lt.1 hps)
        nlinarith
    have h2 := jsNumber_large _ h1
    constructor
    · intro h
      exact absurd (lt_of_le_of_lt h2 (lt_trans h hN)) (lt_irrefl _)
    · intro h
      exact absurd (lt_trans h hN) hs

theorem jsNumber_gt_one_iff (p : Int) (hp : 1 ≤ p) : 1 < jsNumber p ↔ 1 < p := by
  by_cases hps : p < 2 ^ 53
  · rw [jsNumber_small p (by omega) hps]
  · have h3 := jsNumber_large p (not_lt.1 hps)
    have h4 : (1 : Int) < 2 ^ 53 := by norm_num
    constructor
    · intro _
      exact lt_of_lt_of_le h4 (not_lt.1 hps)
    · intro _
      exact lt_of_lt_of_le h4 h3

theorem listTasksFrom_ok {env : RegexEnv} {store : Store} {requester : UserId} {q : Query}
    {f : Filter} (answer : List Task) (hval : listValidators q = [])
    (hf : buildFilter env requester q = some f) :
    listTasksFrom env store requester q answer = .ok
      { tasks := (answer.drop (skipDouble q).toNat).take (jsNumber (numOr q.limit 20)).toNat
        pagination :=
          { currentPage := jsNumber (numOr q.page 1)
            totalPages := ceilDiv (jsNumber (countDocuments store f))
              (jsNumber (numOr q.limit 20))
            totalTasks := jsNumber (countDocuments store f)
            hasNext := decide
              (jsNumber (jsNumber (numOr q.page 1) * jsNumber (numOr q.limit 20))
                < jsNumber (countDocuments store f))
            hasPrev := decide (jsNumber (numOr q.page 1) > 1) } } := by
  simp [listTasksFrom, hval, hf, skipDouble]

/-! ## Pagination -/

theorem validated_bounds {q : Query} (hval : listValidators q = []) :
    1 ≤ numOr q.page 1 ∧ 1 ≤ numOr q.limit 20 ∧ numOr q.limit 20 ≤ 100 := by
  unfold listValidators at hval
  simp only [List.append_eq_nil] at hval
  obtain ⟨⟨_, hpage⟩, hlimit⟩ := hval
  refine ⟨?_, ?_, ?_⟩
  · cases hp : q.page with
    | none => simp [numOr]
    | some v =>
      cases v with
      | notInt => simp [hp] at hpage
      | int n =>
        by_cases hn : 1 ≤ n
        · simpa [numOr] using hn
        · simp [hp, hn] at hpage
  · cases hl : q.limit with
    | none => simp [numOr]
    | some v =>
      cases v with
      | notInt => simp [hl] at hlimit
      | int n =>
        by_cases hn : 1 ≤ n ∧ n ≤ 100
        · simpa [numOr] using hn.1
        · simp [hl, hn] at hlimit
  · cases hl : q.limit with
    | none => simp [numOr]
    | some v =>
      cases v with
      | notInt => simp [hl] at hlimit
      | int n =>
        by_cases hn : 1 ≤ n ∧ n ≤ 100
        · simpa [numOr] using hn.2
        · simp [hl, hn] at hlimit

theorem ceilDiv_eq_ceil (total limit : Int) (hl : 1 ≤ limit) :
    ceilDiv total limit = Int.ceil ((total : ℚ) / (limit : ℚ)) := by
  have hpos : (0 : ℚ) < (limit : ℚ) := by exact_mod_cast (by omega : (0 : Int) < limit)
  have h1 : (total + limit - 1) / limit * limit ≤ total + limit - 1 :=
    Int.ediv_mul_le _ (by omega)
  have h2 : total + limit - 1 < ((total + limit - 1) / limit + 1) * limit :=
    Int.lt_ediv_add_one_mul_self _ (by omega)
  symm
  rw [Int.ceil_eq_iff]
  unfold ceilDiv
  constructor
  · rw [lt_div_iff₀ hpos]
    have : ((total + limit - 1) / limit - 1) * limit < total := by nlinarith
    exact_mod_cast this
  · rw [div_le_iff₀ hpos]
    have : total ≤ (total + limit - 1) / limit * limit := by nlinarith
    exact_mod_cast this

theorem safe_range_numbers {q : Query} (hval : listValidators q = [])
    (hsafe : numOr q.page 1 * numOr q.limit 20 < 2 ^ 53) :
    jsNumber (numOr q.page 1) = numOr q.page 1
      ∧ jsNumber (numOr q.limit 20) = numOr q.limit 20
      ∧ skipDouble q = (numOr q.page 1 - 1) * numOr q.limit 20
      ∧ jsNumber (numOr q.page 1 * numOr q.limit 20) = numOr q.page 1 * numOr q.limit 20 := by
  obtain ⟨hp, hl1, hl2⟩ := validated_bounds hval
  have hpl : numOr q.page 1 ≤ numOr q.page 1 * numOr q.limit 20 := by nlinarith
  have h1 : jsNumber (numOr q.page 1) = numOr q.page 1 :=
    jsNumber_small _ (by omega) (lt_of_le_of_lt hpl hsafe)
  have h2 : jsNumber (numOr q.limit 20) = numOr q.limit 20 :=
    jsNumber_small _ (by omega) (by norm_num; omega)
  have h3 : jsNumber (numOr q.page 1 - 1) = numOr q.page 1 - 1 :=
    jsNumber_small _ (by omega) (lt_of_le_of_lt (by omega) (lt_of_le_of_lt hpl hsafe))
  have h4 : jsNumber ((numOr q.page 1 - 1) * numOr q.limit 20)
      = (numOr q.page 1 - 1) * numOr q.limit 20 :=
    jsNumber_small _ (by nlinarith) (lt_of_le_of_lt (by nlinarith) hsafe)
  refine ⟨h1, h2, ?_, jsNumber_small _ (by nlinarith) hsafe⟩
  unfold skipDouble
  rw [h1, h2, h3, h4]

theorem jsNumber_countDocuments (store : Store) (f : Filter)
    (hN : (store.filter fun t => f.selects t).length < 2 ^ 53) :
    jsNumber (countDocuments store f) = ((store.filter fun t => f.selects t).length : Int) := by
  have h : countDocuments store f = ((store.filter fun t => f.selects t).length : Int) := rfl
  rw [h]
  exact jsNumber_small _ (Int.natCast_nonneg _) (by exact_mod_cast hN)

theorem listTasksFrom_sortStage_eq_listTasks (env : RegexEnv) (store : Store)
    (requester : UserId) (q : Query) (f : Filter) (hval : listValidators q = [])
    (hf : buildFilter env requester q = some f)
    (hsafe : numOr q.page 1 * numOr q.limit 20 < 2 ^ 53)
    (hN : (store.filter fun t => f.selects t).length < 2 ^ 53) :
    listTasksFrom env store requester q
        (sortStage (q.sortBy.getD "createdAt") (q.sortOrder.getD "desc") (findAll store f))
      = listTasks env store requester q := by
  obtain ⟨h1, h2, h3, h4⟩ := safe_range_numbers hval hsafe
  have h5 := jsNumber_countDocuments store f hN
  have h6 : countDocuments store f = ((store.filter fun t => f.selects t).length : Int) := rfl
  rw [listTasksFrom_ok _ hval hf, listTasks_ok hval hf, h1, h2, h3, h4, h5, h6]
  rfl

/-- C10, counterexample. The request `page=9007199254740993` (`2^53 + 1`) with
the default limit passes the validators. The handler holds the page as the
number 9007199254740992: that is the `currentPage` of the response, not the
requested page, and the query skips 180143985094819808 documents, not
`(p - 1) * 20 = 180143985094819840`. -/
theorem large_page_is_rounded :
    listValidators { Query.empty with page := some (.int 9007199254740993) } = []
      ∧ buildFilter sampleEnv 1 { Query.empty with page := some (.int 9007199254740993) }
          = some ⟨1, none, none, none⟩
      ∧ listTasksFrom sampleEnv [titled 1 "A"] 1
          { Query.empty with page := some (.int 9007199254740993) } [titled 1 "A"]
          = .ok ⟨[], ⟨9007199254740992, 1, 1, false, true⟩⟩
      ∧ (9007199254740992 : Int) ≠ numOr (some (.int 9007199254740993)) 1
      ∧ skipDouble { Query.empty with page := some (.int 9007199254740993) }
          = 180143985094819808
      ∧ (numOr (some (.int 9007199254740993)) 1 - 1) * numOr none 20 = 180143985094819840 := by
  refine ⟨by decide, rfl, by decide, by decide, by decide, by decide⟩

/-- C10, amended. A validated list request whose filter is built has a page
`p ≥ 1` and a limit `L` in `[1, 100]` (the parameters, or the defaults 1 and
20). When `p * L < 2^53`, and with `N < 2^53` the number of stored tasks its
filter selects, the response is 200 with `currentPage = p`,
`totalPages = ⌈N / L⌉`, `totalTasks = N`, `hasNext = (p * L < N)`,
`hasPrev = (p > 1)`; the query skips `(p - 1) * L` documents, and the page is
the answer of the store without its first `(p - 1) * L` tasks, cut to `L`.
The filter, hence `N`, is the same for every other value of `page` and
`limit`. -/
theorem pagination_summary_safe_range (env : RegexEnv) (store : Store) (requester : UserId)
    (q : Query) (f : Filter) (answer : List Task) (hval : listValidators q = [])
    (hf : buildFilter env requester q = some f)
    (hsafe : numOr q.page 1 * numOr q.limit 20 < 2 ^ 53)
    (hN : (store.filter fun t => f.selects t).length < 2 ^ 53) :
    1 ≤ numOr q.page 1 ∧ 1 ≤ numOr q.limit 20 ∧ numOr q.limit 20 ≤ 100
      ∧ (∀ page limit : Option NumParam,
          buildFilter env requester { q with page := page, limit := limit } = some f)
      ∧ skipDouble q = (numOr q.page 1 - 1) * numOr q.limit 20
      ∧ ∃ r : ListResult, listTasksFrom env store requester q answer = .ok r
        ∧ r.pagination.currentPage = numOr q.page 1
        ∧ r.pagination.totalPages
            = Int.ceil ((((store.filter fun t => f.selects t).length : Int) : ℚ)
                / (numOr q.limit 20 : ℚ))
        ∧ r.pagination.totalTasks = ((store.filter fun t => f.selects t).length : Int)
        ∧ r.pagination.hasNext
            = decide (numOr q.page 1 * numOr q.limit 20
                < ((store.filter fun t => f.selects t).length : Int))
        ∧ r.pagination.hasPrev = decide (1 < numOr q.page 1)
        ∧ r.tasks
            = (answer.drop ((numOr q.page 1 - 1) * numOr q.limit 20).toNat).take
                (numOr q.limit 20).toNat := by
  obtain ⟨hp, hl1, hl2⟩ := validated_bounds hval
  obtain ⟨h1, h2, h3, h4⟩ := safe_range_numbers hval hsafe
  have h5 := jsNumber_countDocuments store f hN
  refine ⟨hp, hl1, hl2, fun _ _ => hf, h3, _, listTasksFrom_ok answer hval hf, h1, ?_, h5,
    ?_, ?_, ?_⟩
  · show ceilDiv (jsNumber (countDocuments store f)) (jsNumber (numOr q.limit 20)) = _
    rw [h5, h2]
    exact ceilDiv_eq_ceil _ _ hl1
  · show decide (jsNumber (jsNumber (numOr q.page 1) * jsNumber (numOr q.limit 20))
        < jsNumber (countDocuments store f)) = _
    rw [h1, h2, h4, h5]
  · show decide (jsNumber (numOr q.page 1) > 1) = _
    rw [h1]
  · show (answer.drop (skipDouble q).toNat).take (jsNumber (numOr q.limit 20)).toNat = _
    rw [h3, h2]

theorem pagination_summary_safe_range_witness :
    listValidators { Query.empty with page := some (.int 2), limit := some (.int 2) } = []
      ∧ listTasksFrom sampleEnv [titled 1 "C", titled 2 "A", titled 3 "B"] 1
          { Query.empty with page := some (.int 2), limit := some (.int 2) }
          [titled 3 "B", titled 2 "A", titled 1 "C"]
          = .ok ⟨[titled 1 "C"], ⟨2, 2, 3, false, true⟩⟩
      ∧ (1 ≤ numOr (some (.int 2)) 1 ∧ 1 ≤ numOr (some (.int 2)) 20
        ∧ numOr (some (.int 2)) 20 ≤ 100
        ∧ (∀ page limit : Option NumParam,
            buildFilter sampleEnv 1
                { ({ Query.empty with page := some (.int 2), limit := some (.int 2) } : Query)
                  with page := page, limit := limit }
              = some ⟨1, none, none, none⟩)
        ∧ skipDouble { Query.empty with page := some (.int 2), limit := some (.int 2) }
            = (numOr (some (.int 2)) 1 - 1) * numOr (some (.int 2)) 20
        ∧ ∃ r : ListResult,
          listTasksFrom sampleEnv [titled 1 "C", titled 2 "A", titled 3 "B"] 1
              { Query.empty with page := some (.int 2), limit := some (.int 2) }
              [titled 3 "B", titled 2 "A", titled 1 "C"] = .ok r
            ∧ r.pagination.currentPage = numOr (some (.int 2)) 1
            ∧ r.pagination.totalPages
                = Int.ceil
                  (((([titled 1 "C", titled 2 "A", titled 3 "B"].filter
                      fun t => Filter.selects ⟨1, none, none, none⟩ t).length : Int) : ℚ)
                    / (numOr (some (.int 2)) 20 : ℚ))
            ∧ r.pagination.totalTasks
                = (([titled 1 "C", titled 2 "A", titled 3 "B"].filter
                    fun t => Filter.selects ⟨1, none, none, none⟩ t).length : Int)
            ∧ r.pagination.hasNext
                = decide (numOr (some (.int 2)) 1 * numOr (some (.int 2)) 20
                    < (([titled 1 "C", titled 2 "A", titled 3 "B"].filter
                        fun t => Filter.selects ⟨1, none, none, none⟩ t).length : Int))
            ∧ r.pagination.hasPrev = decide (1 < numOr (some (.int 2)) 1)
            ∧ r.tasks
                = (([titled 3 "B", titled 2 "A", titled 1 "C"] : List Task).drop
                    ((numOr (some (.int 2)) 1 - 1) * numOr (some (.int 2)) 20).toNat).take
                    (numOr (some (.int 2)) 20).toNat) :=
  ⟨by decide, by decide,
    pagination_summary_safe_range sampleEnv [titled 1 "C", titled 2 "A", titled 3 "B"] 1
      { Query.empty with page := some (.int 2), limit := some (.int 2) } ⟨1, none, none, none⟩
      [titled 3 "B", titled 2 "A", titled 1 "C"] (by decide) rfl (by decide) (by decide)⟩

/-! ## Page boundaries -/

theorem ceilDiv_bounds (total limit : Int) (hl : 1 ≤ limit) :
    limit * (ceilDiv total limit - 1) < total ∧ total ≤ limit * ceilDiv total limit := by
  have h1 : (total + limit - 1) / limit * limit ≤ total + limit - 1 :=
    Int.ediv_mul_le _ (by omega)
  have h2 : total + limit - 1 < ((total + limit - 1) / limit + 1) * limit :=
    Int.lt_ediv_add_one_mul_self _ (by omega)
  unfold ceilDiv
  constructor <;> nlinarith

theorem lt_ceilDiv_iff (page total limit : Int) (hl : 1 ≤ limit) :
    page * limit < total ↔ page < ceilDiv total limit := by
  obtain ⟨h1, h2⟩ := ceilDiv_bounds total limit hl
  constructor
  · intro h
    by_contra hge
    have : ceilDiv total limit ≤ page := by omega
    nlinarith
  · intro h
    have : page ≤ ceilDiv total limit - 1 := by omega
    nlinarith

/-- C11. For a validated list request with page `p ≥ 1` and limit `L` in
`[1, 100]` whose filter selects `N` stored tasks (`N < 2^53`, so that the
count is a number of JavaScript as it is), whatever the order of the answer
of the store: the response is 200 with `totalTasks = N` and
`totalPages = ⌈N / L⌉`, `hasNext` is true iff the requested page is before the
last one, `p < ⌈N / L⌉`, and `hasPrev` is true iff `p > 1`. The page is not
bounded: a page that the handler holds rounded gives the same two flags. -/
theorem has_next_prev_at_page_boundaries (env : RegexEnv) (store : Store)
    (requester : UserId) (q : Query) (f : Filter) (answer : List Task)
    (hval : listValidators q = []) (hf : buildFilter env requester q = some f)
    (hN : (store.filter fun t => f.selects t).length < 2 ^ 53) :
    1 ≤ numOr q.page 1 ∧ 1 ≤ numOr q.limit 20 ∧ numOr q.limit 20 ≤ 100
      ∧ ∃ r : ListResult, listTasksFrom env store requester q answer = .ok r
        ∧ r.pagination.totalTasks = ((store.filter fun t => f.selects t).length : Int)
        ∧ r.pagination.totalPages
            = Int.ceil ((((store.filter fun t => f.selects t).length : Int) : ℚ)
                / (numOr q.limit 20 : ℚ))
        ∧ (r.pagination.hasNext = true
            ↔ numOr q.page 1
                < Int.ceil ((((store.filter fun t => f.selects t).length : Int) : ℚ)
                    / (numOr q.limit 20 : ℚ)))
        ∧ (r.pagination.hasPrev = true ↔ 1 < numOr q.page 1) := by
  obtain ⟨hp, hl1, hl2⟩ := validated_bounds hval
  have h2 : jsNumber (numOr q.limit 20) = numOr q.limit 20 :=
    jsNumber_small _ (by omega) (by norm_num; omega)
  have h5 := jsNumber_countDocuments store f hN
  have hN2 : ((store.filter fun t => f.selects t).length : Int) < 2 ^ 53 := by
    exact_mod_cast hN
  refine ⟨hp, hl1, hl2, _, listTasksFrom_ok answer hval hf, h5, ?_, ?_, ?_⟩
  · show ceilDiv (jsNumber (countDocuments store f)) (jsNumber (numOr q.limit 20)) = _
    rw [h5, h2]
    exact ceilDiv_eq_ceil _ _ hl1
  · show decide (jsNumber (jsNumber (numOr q.page 1) * jsNumber (numOr q.limit 20))
        < jsNumber (countDocuments store f)) = true ↔ _
    rw [decide_eq_true_eq, h5, jsNumber_mul_lt_iff _ _ _ hp hl1 hl2 hN2,
      ← ceilDiv_eq_ceil _ _ hl1]
    exact lt_ceilDiv_iff _ _ _ hl1
  · show decide (jsNumber (numOr q.page 1) > 1) = true ↔ _
    rw [decide_eq_true_eq]
    exact jsNumber_gt_one_iff _ hp

theorem has_next_prev_at_page_boundaries_witness :
    listValidators { Query.empty with page := some (.int 1), limit := some (.int 2) } = []
      ∧ listTasksFrom sampleEnv [titled 1 "C", titled 2 "A", titled 3 "B"] 1
          { Query.empty with page := some (.int 1), limit := some (.int 2) }
          [titled 3 "B", titled 2 "A", titled 1 "C"]
          = .ok ⟨[titled 3 "B", titled 2 "A"], ⟨1, 2, 3, true, false⟩⟩
      ∧ listTasksFrom sampleEnv [titled 1 "C", titled 2 "A", titled 3 "B"] 1
          { Query.empty with page := some (.int 2), limit := some (.int 2) }
          [titled 3 "B", titled 2 "A", titled 1 "C"]
          = .ok ⟨[titled 1 "C"], ⟨2, 2, 3, false, true⟩⟩
      ∧ ([titled 1 "C", titled 2 "A", titled 3 "B"].filter
          fun t => Filter.selects ⟨1, none, none, none⟩ t).length = 3
      ∧ (1 ≤ numOr (some (.int 1)) 1 ∧ 1 ≤ numOr (some (.int 2)) 20
        ∧ numOr (some (.int 2)) 20 ≤ 100
        ∧ ∃ r : ListResult,
          listTasksFrom sampleEnv [titled 1 "C", titled 2 "A", titled 3 "B"] 1
              { Query.empty with page := some (.int 1), limit := some (.int 2) }
              [titled 3 "B", titled 2 "A", titled 1 "C"] = .ok r
            ∧ r.pagination.totalTasks
                = (([titled 1 "C", titled 2 "A", titled 3 "B"].filter
                    fun t => Filter.selects ⟨1, none, none, none⟩ t).length : Int)
            ∧ r.pagination.totalPages
                = Int.ceil
                  (((([titled 1 "C", titled 2 "A", titled 3 "B"].filter
                      fun t => Filter.selects ⟨1, none, none, none⟩ t).length : Int) : ℚ)
                    / (numOr (some (.int 2)) 20 : ℚ))
            ∧ (r.pagination.hasNext = true
                ↔ numOr (some (.int 1)) 1
                    < Int.ceil
                      (((([titled 1 "C", titled 2 "A", titled 3 "B"].filter
                          fun t => Filter.selects ⟨1, none, none, none⟩ t).length : Int) : ℚ)
                        / (numOr (some (.int 2)) 20 : ℚ)))
            ∧ (r.pagination.hasPrev = true ↔ 1 < numOr (some (.int 1)) 1)) :=
  ⟨by decide, by decide, by decide, by decide,
    has_next_prev_at_page_boundaries sampleEnv [titled 1 "C", titled 2 "A", titled 3 "B"] 1
      { Query.empty with page := some (.int 1), limit := some (.int 2) } ⟨1, none, none, none⟩
      [titled 3 "B", titled 2 "A", titled 1 "C"] (by decide) rfl (by decide)⟩

theorem length_insertSorted (le : Task → Task → Bool) (x : Task) :
    ∀ l : List Task, (insertSorted le x l).length = l.length + 1
  | [] => rfl
  | y :: ys => by
    unfold insertSorted
    split_ifs
    · rfl
    · simp [length_insertSorted le x ys]

theorem length_sortTasks (le : Task → Task → Bool) :
    ∀ l : List Task, (sortTasks le l).length = l.length
  | [] => rfl
  | y :: ys => by
    have ih := length_sortTasks le ys
    unfold sortTasks at ih ⊢
    simp [length_insertSorted, ih]

theorem length_sortStage (sortBy sortOrder : String) (l : List Task) :
    (sortStage sortBy sortOrder l).length = l.length := by
  unfold sortStage
  split_ifs <;> exact length_sortTasks _ l

/-- Size of the slice `drop skip`, `take limit` of a list of `n` items. -/
theorem length_page (l : List Task) (page limit : Int) (hp : 1 ≤ page) (hl : 1 ≤ limit) :
    (((l.drop ((page - 1) * limit).toNat).take limit.toNat).length : Int)
      = min limit (max 0 ((l.length : Int) - (page - 1) * limit)) := by
  have hnn : 0 ≤ (page - 1) * limit := by nlinarith
  rw [List.length_take, List.length_drop]
  generalize (page - 1) * limit = a at hnn ⊢
  omega

/-- C12. For a validated list request whose selection holds `N` tasks, a
page before the last one carries exactly `L` tasks, the last page
(`currentPage = totalPages`) carries `N - L * (totalPages - 1)` tasks, a number
between 1 and `L`, and a page after the last one carries no task. (With
`N = 0` there are no pages, `totalPages = 0`, and every page is empty.) -/
theorem page_sizes (env : RegexEnv) (store : Store) (requester : UserId) (q : Query)
    (f : Filter) (hval : listValidators q = []) (hf : buildFilter env requester q = some f) :
    ∃ r : ListResult, listTasks env store requester q = .ok r
      ∧ r.pagination.totalTasks = countDocuments store f
      ∧ (r.pagination.currentPage < r.pagination.totalPages →
          (r.tasks.length : Int) = numOr q.limit 20)
      ∧ (r.pagination.currentPage = r.pagination.totalPages →
          (r.tasks.length : Int)
              = r.pagination.totalTasks - numOr q.limit 20 * (r.pagination.totalPages - 1)
            ∧ 1 ≤ (r.tasks.length : Int) ∧ (r.tasks.length : Int) ≤ numOr q.limit 20)
      ∧ (r.pagination.totalPages < r.pagination.currentPage → r.tasks = []) := by
  obtain ⟨hp, hl1, _⟩ := validated_bounds hval
  obtain ⟨h1, h2⟩ := ceilDiv_bounds (countDocuments store f) (numOr q.limit 20) hl1
  have hlen : ((((sortStage (q.sortBy.getD "createdAt") (q.sortOrder.getD "desc")
      (findAll store f)).drop (skipOf q).toNat).take (numOr q.limit 20).toNat).length : Int)
      = min (numOr q.limit 20)
          (max 0 (countDocuments store f - (numOr q.page 1 - 1) * numOr q.limit 20)) := by
    have := length_page (sortStage (q.sortBy.getD "createdAt") (q.sortOrder.getD "desc")
      (findAll store f)) (numOr q.page 1) (numOr q.limit 20) hp hl1
    rw [length_sortStage] at this
    exact this
  refine ⟨_, listTasks_ok hval hf, rfl, ?_, ?_, ?_⟩
  · intro hlt
    simp only at hlt ⊢
    rw [hlen]
    have : numOr q.page 1 ≤ ceilDiv (countDocuments store f) (numOr q.limit 20) - 1 := by
      omega
    have : numOr q.page 1 * numOr q.limit 20 < countDocuments store f := by nlinarith
    have : numOr q.limit 20
        ≤ countDocuments store f - (numOr q.page 1 - 1) * numOr q.limit 20 := by nlinarith
    omega
  · intro heq
    simp only at heq ⊢
    rw [hlen, heq]
    have e : (ceilDiv (countDocuments store f) (numOr q.limit 20) - 1) * numOr q.limit 20
        = numOr q.limit 20 * (ceilDiv (countDocuments store f) (numOr q.limit 20) - 1) := by
      ring
    rw [e]
    have : numOr q.limit 20 * ceilDiv (countDocuments store f) (numOr q.limit 20)
        = numOr q.limit 20 * (ceilDiv (countDocuments store f) (numOr q.limit 20) - 1)
          + numOr q.limit 20 := by ring
    generalize numOr q.limit 20 * (ceilDiv (countDocuments store f) (numOr q.limit 20) - 1)
      = a at h1 this ⊢
    generalize numOr q.limit 20 * ceilDiv (countDocuments store f) (numOr q.limit 20)
      = b at h2 this
    omega
  · intro hgt
    simp only at hgt ⊢
    apply List.eq_nil_of_length_eq_zero
    have hz : ((((sortStage (q.sortBy.getD "createdAt") (q.sortOrder.getD "desc")
      (findAll store f)).drop (skipOf q).toNat).take (numOr q.limit 20).toNat).length : Int)
      = 0 := by
      rw [hlen]
      have : ceilDiv (countDocuments store f) (numOr q.limit 20) ≤ numOr q.page 1 - 1 := by
        omega
      have : countDocuments store f ≤ (numOr q.page 1 - 1) * numOr q.limit 20 := by
        nlinarith
      omega
    exact_mod_cast hz

theorem page_sizes_witness :
    listValidators { Query.empty with page := some (.int 2), limit := some (.int 2) } = []
      ∧ listTasks sampleEnv [titled 1 "C", titled 2 "A", titled 3 "B"] 1
          { Query.empty with page := some (.int 2), limit := some (.int 2) }
          = .ok ⟨[titled 1 "C"], ⟨2, 2, 3, false, true⟩⟩
      ∧ ∃ r : ListResult,
        listTasks sampleEnv [titled 1 "C", titled 2 "A", titled 3 "B"] 1
            { Query.empty with page := some (.int 2), limit := some (.int 2) } = .ok r
          ∧ r.pagination.totalTasks
              = countDocuments [titled 1 "C", titled 2 "A", titled 3 "B"] ⟨1, none, none, none⟩
          ∧ (r.pagination.currentPage < r.pagination.totalPages →
              (r.tasks.length : Int) = numOr (some (.int 2)) 20)
          ∧ (r.pagination.currentPage = r.pagination.totalPages →
              (r.tasks.length : Int)
                  = r.pagination.totalTasks
                    - numOr (some (.int 2)) 20 * (r.pagination.totalPages - 1)
                ∧ 1 ≤ (r.tasks.length : Int)
                ∧ (r.tasks.length : Int) ≤ numOr (some (.int 2)) 20)
          ∧ (r.pagination.totalPages < r.pagination.currentPage → r.tasks = []) :=
  ⟨by decide, by decide,
    page_sizes sampleEnv [titled 1 "C", titled 2 "A", titled 3 "B"] 1
      { Query.empty with page := some (.int 2), limit := some (.int 2) } ⟨1, none, none, none⟩
      (by decide) rfl⟩

/-! ## Ordering of the list -/

theorem char_eq_of_toNat_eq {a b : Char} (h : a.toNat = b.toNat) : a = b := by
  rw [← Char.ofNat_toNat a, ← Char.ofNat_toNat b, h]

theorem charsLe_total : ∀ a b : List Char, charsLe a b = true ∨ charsLe b a = true
  | [], _ => Or.inl rfl
  | _ :: _, [] => Or.inr rfl
  | a :: as, b :: bs => by
    simp only [charsLe, Bool.or_eq_true, decide_eq_true_eq, Bool.and_eq_true, beq_iff_eq]
    rcases Nat.lt_trichotomy a.toNat b.toNat with h | h | h
    · exact Or.inl (Or.inl h)
    · have hab : a = b := char_eq_of_toNat_eq h
      rcases charsLe_total as bs with h2 | h2
      · exact Or.inl (Or.inr ⟨hab, h2⟩)
      · exact Or.inr (Or.inr ⟨hab.symm, h2⟩)
    · exact Or.inr (Or.inl h)

theorem charsLe_trans : ∀ a b c : List Char,
    charsLe a b = true → charsLe b c = true → charsLe a c = true
  | [], _, _, _, _ => rfl
  | _ :: _, [], _, h, _ => by simp [charsLe] at h
  | _ :: _, _ :: _, [], _, h => by simp [charsLe] at h
  | a :: as, b :: bs, c :: cs, h1, h2 => by
    simp only [charsLe, Bool.or_eq_true, decide_eq_true_eq, Bool.and_eq_true,
      beq_iff_eq] at h1 h2 ⊢
    rcases h1 with h1 | ⟨rfl, h1⟩
    · rcases h2 with h2 | ⟨rfl, _⟩
      · exact Or.inl (by omega)
      · exact Or.inl h1
    · rcases h2 with h2 | ⟨rfl, h2⟩
      · exact Or.inl h2
      · exact Or.inr ⟨rfl, charsLe_trans as bs cs h1 h2⟩

theorem optDateLe_total (a b : Option Date) : optDateLe a b = true ∨ optDateLe b a = true := by
  cases a <;> cases b <;> simp [optDateLe]
  exact Int.le_total _ _

theorem optDateLe_trans (a b c : Option Date) (h1 : optDateLe a b = true)
    (h2 : optDateLe b c = true) : optDateLe a c = true := by
  cases a <;> cases b <;> cases c <;> simp [optDateLe] at h1 h2 ⊢
  exact Int.le_trans h1 h2

theorem keyLe_total (sortBy : String) (a b : Task) :
    keyLe sortBy a b = true ∨ keyLe sortBy b a = true := by
  unfold keyLe
  split_ifs
  · exact charsLe_total _ _
  · exact optDateLe_total _ _
  · exact charsLe_total _ _
  · exact charsLe_total _ _
  · simp only [decide_eq_true_eq]; exact Int.le_total _ _

theorem keyLe_trans (sortBy : String) (a b c : Task) (h1 : keyLe sortBy a b = true)
    (h2 : keyLe sortBy b c = true) : keyLe sortBy a c = true := by
  unfold keyLe at h1 h2 ⊢
  split_ifs at h1 h2 ⊢
  · exact charsLe_trans _ _ _ h1 h2
  · exact optDateLe_trans _ _ _ h1 h2
  · exact charsLe_trans _ _ _ h1 h2
  · exact charsLe_trans _ _ _ h1 h2
  · simp only [decide_eq_true_eq] at h1 h2 ⊢; exact Int.le_trans h1 h2

theorem pairwise_insertSorted (le : Task → Task → Bool)
    (htotal : ∀ a b, le a b = true ∨ le b a = true)
    (htrans : ∀ a b c, le a b = true → le b c = true → le a c = true) (x : Task) :
    ∀ l : List Task, l.Pairwise (fun a b => le a b = true) →
      (insertSorted le x l).Pairwise (fun a b => le a b = true)
  | [], _ => by simp [insertSorted]
  | y :: ys, h => by
    obtain ⟨hy, hys⟩ := List.pairwise_cons.1 h
    unfold insertSorted
    split_ifs with hxy
    · refine List.pairwise_cons.2 ⟨?_, h⟩
      intro z hz
      rcases List.mem_cons.1 hz with rfl | hz
      · exact hxy
      · exact htrans _ _ _ hxy (hy z hz)
    · refine List.pairwise_cons.2 ⟨?_, pairwise_insertSorted le htotal htrans x ys hys⟩
      intro z hz
      rcases (mem_insertSorted le x z ys).1 hz with rfl | hz
      · exact (htotal z y).resolve_left hxy
      · exact hy z hz

theorem pairwise_sortTasks (le : Task → Task → Bool)
    (htotal : ∀ a b, le a b = true ∨ le b a = true)
    (htrans : ∀ a b c, le a b = true → le b c = true → le a c = true) :
    ∀ l : List Task, (sortTasks le l).Pairwise (fun a b => le a b = true)
  | [] => by simp [sortTasks]
  | y :: ys => by
    have ih := pairwise_sortTasks le htotal htrans ys
    unfold sortTasks at ih ⊢
    exact pairwise_insertSorted le htotal htrans y _ ih

theorem perm_insertSorted (le : Task → Task → Bool) (x : Task) :
    ∀ l : List Task, (insertSorted le x l).Perm (x :: l)
  | [] => List.Perm.refl _
  | y :: ys => by
    unfold insertSorted
    split_ifs
    · exact List.Perm.refl _
    · exact ((perm_insertSorted le x ys).cons y).trans (List.Perm.swap x y ys)

theorem perm_sortTasks (le : Task → Task → Bool) :
    ∀ l : List Task, (sortTasks le l).Perm l
  | [] => List.Perm.refl _
  | y :: ys => by
    have ih := perm_sortTasks le ys
    unfold sortTasks at ih ⊢
    exact (perm_insertSorted le y _).trans (ih.cons y)

theorem perm_sortStage (sortBy sortOrder : String) (l : List Task) :
    (sortStage sortBy sortOrder l).Perm l := by
  unfold sortStage
  split_ifs <;> exact perm_sortTasks _ l

theorem sortStage_asc (sortBy : String) (l : List Task) :
    (sortStage sortBy "asc" l).Pairwise (fun a b => keyLe sortBy a b = true) := by
  unfold sortStage
  rw [if_pos rfl]
  exact pairwise_sortTasks _ (keyLe_total sortBy) (keyLe_trans sortBy) l

theorem sortStage_desc (sortBy sortOrder : String) (h : sortOrder ≠ "asc") (l : List Task) :
    (sortStage sortBy sortOrder l).Pairwise (fun a b => keyLe sortBy b a = true) := by
  unfold sortStage
  rw [if_neg h]
  exact pairwise_sortTasks (fun a b => keyLe sortBy b a)
    (fun a b => (keyLe_total sortBy a b).symm)
    (fun a b c h1 h2 => keyLe_trans sortBy c b a h2 h1) l

theorem getElem?_page (l : List Task) (skip limit i : Nat) (hi : i < limit) :
    ((l.drop skip).take limit)[i]? = l[skip + i]? := by
  rw [List.getElem?_take_of_lt hi, List.getElem?_drop]

/-- C13. The page of a validated list request is the slice of the sorted
selection at the positions `(page - 1) * limit, ..., page * limit - 1`; the
sorted selection is a rearrangement of the requester's selection, ascending on
the key `sortBy` when `sortOrder` is `'asc'` and descending otherwise, where an
absent parameter stands for `sortBy = 'createdAt'`, `sortOrder = 'desc'`,
`page = 1`, `limit = 20`. Over the titles C, A, B, D of one owner, the request
with `sortBy = 'title'`, `sortOrder = 'asc'`, `limit = 2`, `page = 2` returns
C, D with `totalTasks = 4`, `totalPages = 2`, `hasNext = false`,
`hasPrev = true`. -/
theorem list_returns_sorted_slice (env : RegexEnv) (store : Store) (requester : UserId)
    (q : Query) (f : Filter) (hval : listValidators q = [])
    (hf : buildFilter env requester q = some f) :
    (∃ r : ListResult, listTasks env store requester q = .ok r
        ∧ r.tasks.length ≤ (numOr q.limit 20).toNat
        ∧ (∀ i : Nat, i < (numOr q.limit 20).toNat →
            r.tasks[i]?
              = (sortStage (q.sortBy.getD "createdAt") (q.sortOrder.getD "desc")
                  (findAll store f))[((numOr q.page 1 - 1) * numOr q.limit 20).toNat + i]?))
      ∧ (sortStage (q.sortBy.getD "createdAt") (q.sortOrder.getD "desc")
          (findAll store f)).Perm (store.filter fun t => f.selects t)
      ∧ (q.sortOrder = some "asc" →
          (sortStage (q.sortBy.getD "createdAt") (q.sortOrder.getD "desc")
            (findAll store f)).Pairwise
              (fun a b => keyLe (q.sortBy.getD "createdAt") a b = true))
      ∧ (q.sortOrder ≠ some "asc" →
          (sortStage (q.sortBy.getD "createdAt") (q.sortOrder.getD "desc")
            (findAll store f)).Pairwise
              (fun a b => keyLe (q.sortBy.getD "createdAt") b a = true))
      ∧ (none : Option String).getD "createdAt" = "createdAt"
      ∧ (none : Option String).getD "desc" = "desc"
      ∧ numOr none 1 = 1 ∧ numOr none 20 = 20
      ∧ listTasks sampleEnv [titled 1 "C", titled 2 "A", titled 3 "B", titled 4 "D"] 1
          { Query.empty with sortBy := some "title", sortOrder := some "asc",
                             limit := some (.int 2), page := some (.int 2) }
          = .ok ⟨[titled 1 "C", titled 4 "D"], ⟨2, 2, 4, false, true⟩⟩ := by
  refine ⟨⟨_, listTasks_ok hval hf, ?_, ?_⟩, perm_sortStage _ _ _, ?_, ?_, rfl, rfl, rfl, rfl,
    by decide⟩
  · simp only [List.length_take]
    exact Nat.min_le_left _ _
  · intro i hi
    exact getElem?_page _ _ _ i hi
  · intro h
    rw [h]
    exact sortStage_asc _ _
  · intro h
    apply sortStage_desc
    cases hq : q.sortOrder with
    | none => decide
    | some o =>
      intro ho
      apply h
      rw [hq]
      simpa using ho

theorem list_returns_sorted_slice_witness :
    listValidators
        { Query.empty with sortBy := some "title", sortOrder := some "asc",
                           limit := some (.int 2), page := some (.int 2) } = []
      ∧ ∃ r : ListResult,
        listTasks sampleEnv [titled 1 "C", titled 2 "A", titled 3 "B", titled 4 "D"] 1
            { Query.empty with sortBy := some "title", sortOrder := some "asc",
                               limit := some (.int 2), page := some (.int 2) } = .ok r
          ∧ r.tasks.length ≤ (numOr (some (.int 2)) 20).toNat
          ∧ (∀ i : Nat, i < (numOr (some (.int 2)) 20).toNat →
              r.tasks[i]?
                = (sortStage ((some "title" : Option String).getD "createdAt")
                    ((some "asc" : Option String).getD "desc")
                    (findAll [titled 1 "C", titled 2 "A", titled 3 "B", titled 4 "D"]
                      ⟨1, none, none, none⟩))[((numOr (some (.int 2)) 1 - 1)
                        * numOr (some (.int 2)) 20).toNat + i]?) :=
  ⟨by decide,
    (list_returns_sorted_slice sampleEnv
      [titled 1 "C", titled 2 "A", titled 3 "B", titled 4 "D"] 1
      { Query.empty with sortBy := some "title", sortOrder := some "asc",
                         limit := some (.int 2), page := some (.int 2) }
      ⟨1, none, none, none⟩ (by decide) rfl).1⟩

/-! ## Validation of the list request -/

theorem isStatusLabel_iff (s : String) :
    isStatusLabel s = true ↔ s ∈ ["pending", "in-progress", "completed", "cancelled"] := by
  unfold isStatusLabel Status.ofLabel
  split_ifs <;> simp [*]

theorem isPriorityLabel_iff (s : String) :
    isPriorityLabel s = true ↔ s ∈ ["low", "medium", "high", "urgent"] := by
  unfold isPriorityLabel Priority.ofLabel
  split_ifs <;> simp [*]

theorem contains_iff_mem (L : List String) (k : String) : L.contains k = true ↔ k ∈ L := by
  simp

theorem guard_chunk (ok : Prop) [Decidable ok] (name : String) :
    (if ok then [] else [name]) = ([] : List String) ↔ ok := by
  by_cases h : ok <;> simp [h]

theorem not_given_outside (v : String) (L : List String) :
    (¬ ∃ s, some v = some s ∧ s ∉ L) ↔ v ∈ L := by
  constructor
  · intro h
    by_contra hn
    exact h ⟨v, rfl, hn⟩
  · rintro h ⟨s, hs, hn⟩
    cases hs
    exact hn h

theorem listValidators_eq_nil_iff (q : Query) :
    listValidators q = [] ↔
      ¬ StatusInvalid q ∧ ¬ PriorityInvalid q ∧ ¬ SortByInvalid q ∧ ¬ SortOrderInvalid q
        ∧ ¬ PageInvalid q ∧ ¬ LimitInvalid q := by
  unfold listValidators
  simp only [List.append_eq_nil, and_assoc]
  refine and_congr ?_ (and_congr ?_ (and_congr ?_ (and_congr ?_ (and_congr ?_ ?_))))
  · unfold StatusInvalid
    cases q.status with
    | none => simp
    | some s => rw [not_given_outside, ← isStatusLabel_iff]; exact guard_chunk _ _
  · unfold PriorityInvalid
    cases q.priority with
    | none => simp
    | some s => rw [not_given_outside, ← isPriorityLabel_iff]; exact guard_chunk _ _
  · unfold SortByInvalid
    cases q.sortBy with
    | none => simp
    | some k => rw [not_given_outside, ← contains_iff_mem]; exact guard_chunk _ _
  · unfold SortOrderInvalid
    cases q.sortOrder with
    | none => simp
    | some o => rw [not_given_outside, ← contains_iff_mem]; exact guard_chunk _ _
  · unfold PageInvalid
    cases q.page with
    | none => simp
    | some v =>
      cases v with
      | notInt => simp
      | int n => by_cases h : 1 ≤ n <;> simp [h]
  · unfold LimitInvalid
    cases q.limit with
    | none => simp
    | some v =>
      cases v with
      | notInt => simp
      | int n => by_cases h : 1 ≤ n ∧ n ≤ 100 <;> simp [h]

theorem listValidators_complete (q : Query) :
    (StatusInvalid q → "status" ∈ listValidators q)
      ∧ (PriorityInvalid q → "priority" ∈ listValidators q)
      ∧ (SortByInvalid q → "sortBy" ∈ listValidators q)
      ∧ (SortOrderInvalid q → "sortOrder" ∈ listValidators q)
      ∧ (PageInvalid q → "page" ∈ listValidators q)
      ∧ (LimitInvalid q → "limit" ∈ listValidators q) := by
  refine ⟨?_, ?_, ?_, ?_, ?_, ?_⟩
  · rintro ⟨s, hs, hn⟩
    have hl : isStatusLabel s = false := by
      rw [← Bool.not_eq_true, isStatusLabel_iff]; exact hn
    simp [listValidators, hs, hl]
  · rintro ⟨s, hs, hn⟩
    have hl : isPriorityLabel s = false := by
      rw [← Bool.not_eq_true, isPriorityLabel_iff]; exact hn
    simp [listValidators, hs, hl]
  · rintro ⟨k, hk, hn⟩
    have hl : ["title", "dueDate", "priority", "status", "createdAt"].contains k = false := by
      rw [← Bool.not_eq_true, contains_iff_mem]; exact hn
    simp only [listValidators, hk, hl, List.mem_append]
    simp
  · rintro ⟨o, ho, hn⟩
    have hl : ["asc", "desc"].contains o = false := by
      rw [← Bool.not_eq_true, contains_iff_mem]; exact hn
    simp only [listValidators, ho, hl, List.mem_append]
    simp
  · rintro (h | ⟨v, hv, hlt⟩)
    · simp [listValidators, h]
    · have : ¬ 1 ≤ v := by omega
      simp [listValidators, hv, this]
  · rintro (h | ⟨v, hv, hlt⟩)
    · simp [listValidators, h]
    · have : ¬ (1 ≤ v ∧ v ≤ 100) := by omega
      simp only [listValidators, hv, this, List.mem_append]
      simp

theorem listTasks_code_400_iff (env : RegexEnv) (store : Store) (requester : UserId)
    (q : Query) : (listTasks env store requester q).code = 400 ↔ listValidators q ≠ [] := by
  unfold listTasks
  simp only
  by_cases hval : listValidators q = []
  · simp only [hval, ne_eq, not_true_eq_false, if_false, iff_false]
    cases buildFilter env requester q <;> simp [Response.code]
  · simp [hval, Response.code]

/-- C14. A list request is answered 400 iff at least one parameter is invalid
(`status` or `priority` outside its enumeration, `sortBy` not a sort key,
`sortOrder` neither `asc` nor `desc`, `page` not an integer `≥ 1`, `limit` not
an integer of `[1, 100]`). The error list of a rejected request names every
invalid parameter, and the answer does not depend on the collection or on the
expression engine: no query is made. With `status = 'done'` and `page = 0` the
errors are those of `status` and `page`. -/
theorem list_validation_collects_errors (env : RegexEnv) (store : Store)
    (requester : UserId) (q : Query) :
    ((listTasks env store requester q).code = 400 ↔
        StatusInvalid q ∨ PriorityInvalid q ∨ SortByInvalid q ∨ SortOrderInvalid q
          ∨ PageInvalid q ∨ LimitInvalid q)
      ∧ (∀ errors : List String, listTasks env store requester q = .badRequest errors →
          (StatusInvalid q → "status" ∈ errors)
            ∧ (PriorityInvalid q → "priority" ∈ errors)
            ∧ (SortByInvalid q → "sortBy" ∈ errors)
            ∧ (SortOrderInvalid q → "sortOrder" ∈ errors)
            ∧ (PageInvalid q → "page" ∈ errors)
            ∧ (LimitInvalid q → "limit" ∈ errors))
      ∧ ((listTasks env store requester q).code = 400 →
          ∀ (env2 : RegexEnv) (store2 : Store),
            listTasks env2 store2 requester q = listTasks env store requester q)
      ∧ listTasks sampleEnv [sampleTask] 1
          { Query.empty with status := some "done", page := some (.int 0) }
          = .badRequest ["status", "page"] := by
  refine ⟨?_, ?_, ?_, by decide⟩
  · rw [listTasks_code_400_iff, ne_eq, listValidators_eq_nil_iff]
    have hprop : ∀ a b c d e f : Prop,
        ¬ (¬ a ∧ ¬ b ∧ ¬ c ∧ ¬ d ∧ ¬ e ∧ ¬ f) ↔ a ∨ b ∨ c ∨ d ∨ e ∨ f := by
      intros; tauto
    exact hprop _ _ _ _ _ _
  · intro errors herr
    have hne : listValidators q ≠ [] := by
      rw [← listTasks_code_400_iff env store requester q, herr]; rfl
    have he : errors = listValidators q := by
      unfold listTasks at herr
      simp only [hne, ne_eq, not_false_eq_true, if_true] at herr
      cases herr
      rfl
    rw [he]
    exact listValidators_complete q
  · intro h env2 store2
    have hne := (listTasks_code_400_iff env store requester q).1 h
    simp [listTasks, hne]

/-! ## Statistics -/

theorem status_label_beq (st s : Status) : (st.label == s.label) = decide (st = s) := by
  cases st <;> cases s <;> decide

theorem priority_label_beq (pr p : Priority) : (pr.label == p.label) = decide (pr = p) := by
  cases pr <;> cases p <;> decide

theorem cond01_add_countP (p : Task → Bool) (t : Task) (rest : List Task) (n : Nat) :
    n + cond01 (p t) + rest.countP p = n + (t :: rest).countP p := by
  rw [List.countP_cons]
  unfold cond01
  split_ifs <;> omega

/-- Counters accumulated by the `$group` stage over a list of documents. -/
theorem foldl_accumulate (now : Date) :
    ∀ (docs : List Task) (acc : Stats),
      docs.foldl (accumulate now) acc =
        { total := acc.total + docs.length
          completed := acc.completed + docs.countP fun t => decide (t.status = .completed)
          pending := acc.pending + docs.countP fun t => decide (t.status = .pending)
          inProgress := acc.inProgress + docs.countP fun t => decide (t.status = .inProgress)
          cancelled := acc.cancelled + docs.countP fun t => decide (t.status = .cancelled)
          urgent := acc.urgent + docs.countP fun t => decide (t.priority = .urgent)
          high := acc.high + docs.countP fun t => decide (t.priority = .high)
          overdue := acc.overdue + docs.countP fun t =>
            !decide (t.status = .completed) && aggLtDate t.dueDate now }
  | [], acc => by simp
  | t :: rest, acc => by
    rw [List.foldl_cons, foldl_accumulate now rest]
    have hc : (t.status.label == "completed") = decide (t.status = .completed) :=
      status_label_beq t.status .completed
    have hp : (t.status.label == "pending") = decide (t.status = .pending) :=
      status_label_beq t.status .pending
    have hi : (t.status.label == "in-progress") = decide (t.status = .inProgress) :=
      status_label_beq t.status .inProgress
    have hx : (t.status.label == "cancelled") = decide (t.status = .cancelled) :=
      status_label_beq t.status .cancelled
    have hu : (t.priority.label == "urgent") = decide (t.priority = .urgent) :=
      priority_label_beq t.priority .urgent
    have hh : (t.priority.label == "high") = decide (t.priority = .high) :=
      priority_label_beq t.priority .high
    have hne : (t.status.label != "completed") = !decide (t.status = .completed) := by
      rw [← hc]; rfl
    simp only [accumulate, hc, hp, hi, hx, hu, hh, hne, List.length_cons]
    congr 1
    · omega
    · exact cond01_add_countP (fun t => decide (t.status = .completed)) t rest _
    · exact cond01_add_countP (fun t => decide (t.status = .pending)) t rest _
    · exact cond01_add_countP (fun t => decide (t.status = .inProgress)) t rest _
    · exact cond01_add_countP (fun t => decide (t.status = .cancelled)) t rest _
    · exact cond01_add_countP (fun t => decide (t.priority = .urgent)) t rest _
    · exact cond01_add_countP (fun t => decide (t.priority = .high)) t rest _
    · exact cond01_add_countP
        (fun t => !decide (t.status = .completed) && aggLtDate t.dueDate now) t rest _

/-- Counters of the statistics response for a requester who owns a task. -/
theorem statsOverview_counts (store : Store) (requester : UserId) (now : Date)
    (h : ∃ t ∈ store, t.user = requester) :
    statsOverview store requester now = .ok
      { total := (store.filter fun t => t.user == requester).length
        completed := (store.filter fun t => t.user == requester).countP
          fun t => decide (t.status = .completed)
        pending := (store.filter fun t => t.user == requester).countP
          fun t => decide (t.status = .pending)
        inProgress := (store.filter fun t => t.user == requester).countP
          fun t => decide (t.status = .inProgress)
        cancelled := (store.filter fun t => t.user == requester).countP
          fun t => decide (t.status = .cancelled)
        urgent := (store.filter fun t => t.user == requester).countP
          fun t => decide (t.priority = .urgent)
        high := (store.filter fun t => t.user == requester).countP
          fun t => decide (t.priority = .high)
        overdue := (store.filter fun t => t.user == requester).countP
          fun t => !decide (t.status = .completed) && aggLtDate t.dueDate now } := by
  obtain ⟨t, ht, hu⟩ := h
  have hmem : t ∈ store.filter fun t => t.user == requester :=
    List.mem_filter.2 ⟨ht, by simpa using hu⟩
  unfold statsOverview aggregateStats
  cases hd : store.filter fun t => t.user == requester with
  | nil => rw [hd] at hmem; cases hmem
  | cons d rest =>
    simp only [List.head?_cons]
    rw [foldl_accumulate]
    simp [zeroStats]

/-- C15. For user 1 owning one pending task of priority `high` without
`dueDate`, the statistics report `total = 1`, `pending = 1`, `high = 1` and
`overdue = 1`, although no task of the user has a `dueDate` before now: the
`$lt` of the aggregation holds for a missing `dueDate`. With the `dueDate`
set to an earlier instant the report is `overdue = 1, high = 1, total = 1`,
as in the scenario. -/
theorem stats_overdue_counts_missing_due_date :
    statsOverview [{ sampleTask with dueDate := none }] 1 2000
        = .ok ⟨1, 0, 1, 0, 0, 0, 1, 1⟩
      ∧ [{ sampleTask with dueDate := none }].countP
          (fun t => decide (OverdueSpec 2000 t)) = 0
      ∧ Task.isOverdue { sampleTask with dueDate := none } 2000 = false
      ∧ statsOverview [sampleTask] 1 2000 = .ok ⟨1, 0, 1, 0, 0, 0, 1, 1⟩
      ∧ [sampleTask].countP (fun t => decide (OverdueSpec 2000 t)) = 1 := by
  refine ⟨by decide, by decide, by decide, by decide, by decide⟩

/-- C16. For a requester who owns no task the statistics request is
answered 200 with the eight counters `total`, `completed`, `pending`,
`inProgress`, `cancelled`, `urgent`, `high` and `overdue` all equal to 0. -/
theorem stats_zero_without_tasks (store : Store) (requester : UserId) (now : Date)
    (h : ∀ t ∈ store, t.user ≠ requester) :
    statsOverview store requester now
      = .ok { total := 0, completed := 0, pending := 0, inProgress := 0, cancelled := 0,
              urgent := 0, high := 0, overdue := 0 } := by
  have hnil : (store.filter fun t => t.user == requester) = [] := by
    rw [List.filter_eq_nil_iff]
    intro t ht
    simpa using h t ht
  unfold statsOverview aggregateStats
  rw [hnil]
  rfl

theorem stats_zero_without_tasks_witness :
    (∀ t ∈ [sampleTask], t.user ≠ 2)
      ∧ statsOverview [sampleTask] 2 2000
        = .ok { total := 0, completed := 0, pending := 0, inProgress := 0, cancelled := 0,
                urgent := 0, high := 0, overdue := 0 } :=
  ⟨by decide, stats_zero_without_tasks [sampleTask] 2 2000 (by decide)⟩

/-! ## The virtual `isOverdue` -/

/-- C17. The virtual `isOverdue` is true iff `dueDate` is set, `isCompleted`
is false and `dueDate` is strictly earlier than now; it is false when
`dueDate` equals now, when `dueDate` is absent, and when `isCompleted` is
true. -/
theorem isOverdue_iff (t : Task) (now : Date) :
    (t.isOverdue now = true ↔ ∃ d, t.dueDate = some d ∧ t.isCompleted = false ∧ d < now)
      ∧ (t.dueDate = some now → t.isOverdue now = false)
      ∧ (t.dueDate = none → t.isOverdue now = false)
      ∧ (t.isCompleted = true → t.isOverdue now = false) := by
  unfold Task.isOverdue
  refine ⟨?_, ?_, ?_, ?_⟩
  · cases t.dueDate with
    | none => simp
    | some d => cases t.isCompleted <;> simp
  · intro h; rw [h]; cases t.isCompleted <;> simp
  · intro h; rw [h]
  · intro h; rw [h]; cases t.dueDate <;> simp

/-! ## Deletion -/

theorem uniqueIds_cons {y : Task} {rest : Store} (hu : UniqueIds (y :: rest)) :
    (∀ t ∈ rest, t.id ≠ y.id) ∧ UniqueIds rest := by
  unfold UniqueIds at hu ⊢
  rw [List.map_cons, List.nodup_cons] at hu
  refine ⟨?_, hu.2⟩
  intro t ht hid
  exact hu.1 (hid ▸ List.mem_map_of_mem Task.id ht)

theorem filter_id_ne_self {rest : Store} {i : TaskId} (h : ∀ t ∈ rest, t.id ≠ i) :
    rest.filter (fun t => t.id != i) = rest := by
  rw [List.filter_eq_self]
  intro t ht
  simpa using h t ht

theorem removeFirst_owned {T : Task} :
    ∀ {store : Store}, UniqueIds store → T ∈ store →
      removeFirst (ownedBy T.id T.user) store = store.filter (fun t => t.id != T.id)
  | [], _, hT => by cases hT
  | y :: rest, hu, hT => by
    obtain ⟨hne, hrest⟩ := uniqueIds_cons hu
    rcases List.mem_cons.1 hT with rfl | hT2
    · simp [removeFirst, ownedBy, List.filter_cons, filter_id_ne_self hne]
    · have hy : y.id ≠ T.id := fun h => hne T hT2 h.symm
      simp [removeFirst, ownedBy, List.filter_cons, hy, removeFirst_owned hrest hT2]

/-- C18. `delete` by the owner answers 200 and leaves exactly the stored
tasks with another id, unchanged and in their order; the same request issued
again answers 404 and leaves the collection as it is. -/
theorem delete_removes_exactly (store : Store) (T : Task) (hu : UniqueIds store)
    (hT : T ∈ store) :
    deleteTask store T.user (.oid T.id) = (store.filter (fun t => t.id != T.id), .ok ())
      ∧ (∀ t : Task, t ∈ store.filter (fun t => t.id != T.id) ↔ t ∈ store ∧ t ≠ T)
      ∧ deleteTask (store.filter (fun t => t.id != T.id)) T.user (.oid T.id)
          = (store.filter (fun t => t.id != T.id), .notFound) := by
  refine ⟨?_, ?_, ?_⟩
  · simp [deleteTask, findOne_owner hu hT, removeFirst_owned hu hT]
  · intro t
    rw [List.mem_filter]
    constructor
    · rintro ⟨ht, hid⟩
      refine ⟨ht, ?_⟩
      rintro rfl
      simp at hid
    · rintro ⟨ht, hne⟩
      refine ⟨ht, ?_⟩
      have : t.id ≠ T.id := fun hid => hne (List.inj_on_of_nodup_map hu ht hT hid)
      simpa using this
  · have hnone : findOne (store.filter (fun t => t.id != T.id)) T.id T.user = none := by
      apply findOne_eq_none_of_owner_ne
      intro t ht hid
      have := (List.mem_filter.1 ht).2
      simp [hid] at this
    simp [deleteTask, hnone]

theorem delete_removes_exactly_witness :
    UniqueIds [titled 1 "C", titled 2 "A"] ∧ titled 2 "A" ∈ [titled 1 "C", titled 2 "A"]
      ∧ deleteTask [titled 1 "C", titled 2 "A"] (titled 2 "A").user (.oid (titled 2 "A").id)
          = ([titled 1 "C", titled 2 "A"].filter (fun t => t.id != (titled 2 "A").id), .ok ())
      ∧ (∀ t : Task,
          t ∈ [titled 1 "C", titled 2 "A"].filter (fun t => t.id != (titled 2 "A").id)
            ↔ t ∈ [titled 1 "C", titled 2 "A"] ∧ t ≠ titled 2 "A")
      ∧ deleteTask ([titled 1 "C", titled 2 "A"].filter (fun t => t.id != (titled 2 "A").id))
            (titled 2 "A").user (.oid (titled 2 "A").id)
          = ([titled 1 "C", titled 2 "A"].filter (fun t => t.id != (titled 2 "A").id),
              .notFound) :=
  ⟨by decide, by simp,
    delete_removes_exactly [titled 1 "C", titled 2 "A"] (titled 2 "A") (by decide) (by simp)⟩

/-! ## Frame of `update` -/

theorem replaceFirst_owned {T : Task} (g : Task → Task) :
    ∀ {store : Store}, UniqueIds store → T ∈ store →
      replaceFirst (ownedBy T.id T.user) g store
        = store.map (fun t => if t.id = T.id then g T else t)
  | [], _, hT => by cases hT
  | y :: rest, hu, hT => by
    obtain ⟨hne, hrest⟩ := uniqueIds_cons hu
    rcases List.mem_cons.1 hT with rfl | hT2
    · have hmap : rest.map (fun t => if t.id = T.id then g T else t) = rest := by
        conv_rhs => rw [← List.map_id rest]
        apply List.map_congr_left
        intro t ht
        simp [hne t ht]
      simp [replaceFirst, ownedBy, hmap]
    · have hy : y.id ≠ T.id := fun h => hne T hT2 h.symm
      simp [replaceFirst, ownedBy, hy, replaceFirst_owned g hrest hT2]

/-- C19. An accepted `update` by the owner answers 200 with the updated task
and stores it in place of the old one; every other task of the collection is
unchanged. In the updated task the id and `createdAt` are kept, and each of
`title`, `description`, `status`, `priority`, `dueDate`, `completedAt`, `tags`,
`user`, `isCompleted`, `estimatedTime`, `actualTime` that is absent from the
body has its former value. -/
theorem update_changes_only_given_fields (store : Store) (T : Task) (body : Body)
    (now : Date) (hu : UniqueIds store) (hT : T ∈ store)
    (hvalid : updateValidators body = []) (hschema : updateValid (sanitize body) = true) :
    ∃ T1 : Task,
      updateTask store T.user (.oid T.id) body now
          = (store.map (fun t => if t.id = T.id then T1 else t), .ok T1)
        ∧ T1.id = T.id ∧ T1.createdAt = T.createdAt
        ∧ (body.title = none → T1.title = T.title)
        ∧ (body.description = none → T1.description = T.description)
        ∧ (body.status = none → T1.status = T.status)
        ∧ (body.priority = none → T1.priority = T.priority)
        ∧ (body.dueDate = none → T1.dueDate = T.dueDate)
        ∧ (body.completedAt = none → T1.completedAt = T.completedAt)
        ∧ (body.tags = none → T1.tags = T.tags)
        ∧ (body.user = none → T1.user = T.user)
        ∧ (body.isCompleted = none → T1.isCompleted = T.isCompleted)
        ∧ (body.estimatedTime = none → T1.estimatedTime = T.estimatedTime)
        ∧ (body.actualTime = none → T1.actualTime = T.actualTime) := by
  refine ⟨applyUpdate (sanitize body) now T, ?_, rfl, rfl, ?_, ?_, ?_, ?_, ?_, ?_, ?_, ?_, ?_,
    ?_, ?_⟩
  · simp [updateTask, hvalid, hschema, findOne_owner hu hT, replaceFirst_owned _ hu hT]
  all_goals
    intro h
    simp [applyUpdate, sanitize, h]

theorem update_changes_only_given_fields_witness :
    UniqueIds [titled 1 "C", sampleTask] ∧ sampleTask ∈ [titled 1 "C", sampleTask]
      ∧ updateValidators { Body.empty with title := some " New title " } = []
      ∧ ∃ T1 : Task,
        updateTask [titled 1 "C", sampleTask] sampleTask.user (.oid sampleTask.id)
            { Body.empty with title := some " New title " } 2000
          = ([titled 1 "C", sampleTask].map (fun t => if t.id = sampleTask.id then T1 else t),
              .ok T1)
        ∧ T1.id = sampleTask.id ∧ T1.createdAt = sampleTask.createdAt
        ∧ (({ Body.empty with title := some " New title " } : Body).title = none →
            T1.title = sampleTask.title)
        ∧ (({ Body.empty with title := some " New title " } : Body).description = none →
            T1.description = sampleTask.description)
        ∧ (({ Body.empty with title := some " New title " } : Body).status = none →
            T1.status = sampleTask.status)
        ∧ (({ Body.empty with title := some " New title " } : Body).priority = none →
            T1.priority = sampleTask.priority)
        ∧ (({ Body.empty with title := some " New title " } : Body).dueDate = none →
            T1.dueDate = sampleTask.dueDate)
        ∧ (({ Body.empty with title := some " New title " } : Body).completedAt = none →
            T1.completedAt = sampleTask.completedAt)
        ∧ (({ Body.empty with title := some " New title " } : Body).tags = none →
            T1.tags = sampleTask.tags)
        ∧ (({ Body.empty with title := some " New title " } : Body).user = none →
            T1.user = sampleTask.user)
        ∧ (({ Body.empty with title := some " New title " } : Body).isCompleted = none →
            T1.isCompleted = sampleTask.isCompleted)
        ∧ (({ Body.empty with title := some " New title " } : Body).estimatedTime = none →
            T1.estimatedTime = sampleTask.estimatedTime)
        ∧ (({ Body.empty with title := some " New title " } : Body).actualTime = none →
            T1.actualTime = sampleTask.actualTime) :=
  ⟨by decide, by simp, by decide,
    update_changes_only_given_fields [titled 1 "C", sampleTask] sampleTask
      { Body.empty with title := some " New title " } 2000 (by decide) (by simp) (by decide)
      (by decide)⟩

/-! ## Rejection of invalid bodies -/

theorem createTask_store (store : Store) (requester : UserId) (body : Body) (newId : TaskId)
    (now : Date) (h : (createTask store requester body newId now).2.code ≠ 201) :
    (createTask store requester body newId now).1 = store := by
  unfold createTask at h ⊢
  simp only at h ⊢
  by_cases herr : createValidators body ≠ []
  · simp [herr]
  · simp only [herr, if_false] at h ⊢
    cases hdoc : newDocument { sanitize body with user := some requester } newId now with
    | none => simp
    | some task =>
      simp only [hdoc] at h ⊢
      by_cases hdup : store.any (fun s => s.id == newId) = true
      · simp [hdup]
      · simp [hdup, Response.code] at h

theorem updateTask_store (store : Store) (requester : UserId) (id : IdParam) (body : Body)
    (now : Date) (h : (updateTask store requester id body now).2.code ≠ 200) :
    (updateTask store requester id body now).1 = store := by
  unfold updateTask at h ⊢
  simp only at h ⊢
  by_cases herr : updateValidators body ≠ []
  · simp [herr]
  · simp only [herr, if_false] at h ⊢
    cases id with
    | malformed => rfl
    | oid i =>
      simp only at h ⊢
      by_cases hs : updateValid (sanitize body) = true
      · simp only [hs, if_true] at h ⊢
        cases hfind : findOne store i requester with
        | none => rfl
        | some task => simp [hfind, Response.code] at h
      · simp [hs]

/-- C20. Three bodies that violate a constraint of the task entity are
answered 500 by `create`, not 400: a title of three spaces (empty after
trimming), a status outside the enumeration, and a negative `actualTime`.
Nothing is stored. The same status and the same `actualTime` are answered
400 by `update`, whose validators cover both fields. -/
theorem create_answers_500_on_entity_violation :
    createTask [] 1 { Body.empty with title := some "   " } 7 2000 = ([], .serverError)
      ∧ createTask [] 1 { Body.empty with title := some "Plan", status := some "done" } 7 2000
          = ([], .serverError)
      ∧ createTask [] 1 { Body.empty with title := some "Plan", actualTime := some (-5) } 7 2000
          = ([], .serverError)
      ∧ updateTask [sampleTask] 1 (.oid 7) { Body.empty with status := some "done" } 2000
          = ([sampleTask], .badRequest ["status"])
      ∧ updateTask [sampleTask] 1 (.oid 7) { Body.empty with actualTime := some (-5) } 2000
          = ([sampleTask], .badRequest ["actualTime"]) := by
  refine ⟨by decide, by decide, by decide, by decide, by decide⟩

/-! ## Malformed identifiers -/

theorem malformed_id_not_found (store : Store) (requester : UserId) (body : Body)
    (now : Date) (hvalid : updateValidators body = []) :
    getTask store requester .malformed = .notFound
      ∧ updateTask store requester .malformed body now = (store, .notFound)
      ∧ deleteTask store requester .malformed = (store, .notFound) := by
  refine ⟨rfl, ?_, rfl⟩
  simp [updateTask, hvalid]

/-- C21. With a malformed id and the body `{ status: 'completed' }`,
`setStatus` is answered 500: its handler has no branch for the cast error.
`get`, `update` and `delete` with a malformed id are answered 404. -/
theorem setStatus_malformed_id_answers_500 :
    setStatus [sampleTask] 1 .malformed { Body.empty with status := some "completed" } 2000
        = ([sampleTask], .serverError)
      ∧ (setStatus [sampleTask] 1 .malformed
          { Body.empty with status := some "completed" } 2000).2.code = 500
      ∧ getTask [sampleTask] 1 .malformed = .notFound
      ∧ updateTask [sampleTask] 1 .malformed { Body.empty with status := some "completed" } 2000
          = ([sampleTask], .notFound)
      ∧ deleteTask [sampleTask] 1 .malformed = ([sampleTask], .notFound) := by
  refine ⟨by decide, by decide, by decide, by decide, by decide⟩

/-! ## Sorting by priority -/

/-- The ascending order on the key `priority`, case by case. -/
theorem keyLe_priority_iff (a b : Task) :
    keyLe "priority" a b = true ↔
      (match a.priority, b.priority with
        | .high, _ => True
        | .low, .high => False
        | .low, _ => True
        | .medium, .high => False
        | .medium, .low => False
        | .medium, _ => True
        | .urgent, .urgent => True
        | .urgent, _ => False) := by
  have hk : keyLe "priority" a b
      = charsLe a.priority.label.data b.priority.label.data := by
    unfold keyLe
    rw [if_neg (by decide), if_neg (by decide), if_pos rfl]
  rw [hk]
  cases a.priority <;> cases b.priority <;> decide

/-- C22. Sorting by `priority` follows the lexical order of the labels:
ascending, no task comes before a task whose label is lexically smaller
(`high < low < medium < urgent`), and descending the other way round. Over
one task of each priority the list request with `sortBy = 'priority'` returns
high, low, medium, urgent for `asc` and urgent, medium, low, high for
`desc`. -/
theorem priority_sort_is_lexical (l : List Task) :
    (sortStage "priority" "asc" l).Pairwise
        (fun a b => charsLe a.priority.label.data b.priority.label.data = true)
      ∧ (sortStage "priority" "desc" l).Pairwise
        (fun a b => charsLe b.priority.label.data a.priority.label.data = true)
      ∧ (charsLe "high".data "low".data = true ∧ charsLe "low".data "medium".data = true
          ∧ charsLe "medium".data "urgent".data = true
          ∧ charsLe "low".data "high".data = false
          ∧ charsLe "medium".data "low".data = false
          ∧ charsLe "urgent".data "medium".data = false)
      ∧ (∃ r : ListResult,
          listTasks sampleEnv
              [{ titled 1 "a" with priority := .low }, { titled 2 "b" with priority := .medium },
               { titled 3 "c" with priority := .high }, { titled 4 "d" with priority := .urgent }]
              1 { Query.empty with sortBy := some "priority", sortOrder := some "asc" } = .ok r
            ∧ r.tasks.map Task.priority = [.high, .low, .medium, .urgent])
      ∧ (∃ r : ListResult,
          listTasks sampleEnv
              [{ titled 1 "a" with priority := .low }, { titled 2 "b" with priority := .medium },
               { titled 3 "c" with priority := .high }, { titled 4 "d" with priority := .urgent }]
              1 { Query.empty with sortBy := some "priority", sortOrder := some "desc" } = .ok r
            ∧ r.tasks.map Task.priority = [.urgent, .medium, .low, .high]) := by
  have hk : ∀ a b : Task, keyLe "priority" a b
      = charsLe a.priority.label.data b.priority.label.data := by
    intro a b
    unfold keyLe
    rw [if_neg (by decide), if_neg (by decide), if_pos rfl]
  refine ⟨?_, ?_, by decide, ?_, ?_⟩
  · have h := sortStage_asc "priority" l
    simpa only [hk] using h
  · have h := sortStage_desc "priority" "desc" (by decide) l
    simpa only [hk] using h
  · exact ⟨_, rfl, by decide⟩
  · exact ⟨_, rfl, by decide⟩

/-- C23. The option shown as "Priority (High to Low)" has the value
`priority-desc`; choosing it sets the sort to `priority`, `desc`, and the list
request built from that state returns a task of priority `medium` before a
task of priority `high`. The option "Priority (Low to High)" returns a task
of priority `high` before a task of priority `low`. Neither order follows the
severity. -/
theorem priority_option_not_by_severity :
    SortOption.priorityHighToLow.text = "Priority (High to Low)"
      ∧ SortOption.priorityHighToLow.value = "priority-desc"
      ∧ (selectSort taskInitialState .priorityHighToLow).sort = ⟨"priority", "desc"⟩
      ∧ (∃ r : ListResult,
          listTasks sampleEnv
              [{ titled 1 "a" with priority := .high }, { titled 2 "b" with priority := .medium }]
              1 (fetchQuery (selectSort taskInitialState .priorityHighToLow)) = .ok r
            ∧ r.tasks.map Task.priority = [.medium, .high])
      ∧ Priority.medium.severity < Priority.high.severity
      ∧ SortOption.priorityLowToHigh.text = "Priority (Low to High)"
      ∧ (selectSort taskInitialState .priorityLowToHigh).sort = ⟨"priority", "asc"⟩
      ∧ (∃ r : ListResult,
          listTasks sampleEnv
              [{ titled 1 "a" with priority := .low }, { titled 2 "b" with priority := .high }]
              1 (fetchQuery (selectSort taskInitialState .priorityLowToHigh)) = .ok r
            ∧ r.tasks.map Task.priority = [.high, .low])
      ∧ Priority.low.severity < Priority.high.severity := by
  refine ⟨rfl, rfl, by decide, ⟨_, rfl, by decide⟩, by decide, rfl, by decide,
    ⟨_, rfl, by decide⟩, by decide⟩

/-! ## Rejected search patterns -/

/-- C24. The list request with `search = '('` passes the validators, and its
pattern, an unclosed group, is rejected when the filter is built: the request
is answered 500, for every collection and requester. -/
theorem list_search_open_paren_answers_500 :
    listValidators { Query.empty with search := some "(" } = []
      ∧ listTasks sampleEnv [sampleTask] 1 { Query.empty with search := some "(" }
          = .serverError
      ∧ (∀ (env : RegexEnv) (store : Store) (requester : UserId),
          listTasks env store requester { Query.empty with search := some "(" }
            = .serverError) := by
  refine ⟨by decide, by decide, ?_⟩
  intro env store requester
  have hc : compileRegex env "(" = .invalid := by
    simp [compileRegex, balanced, isPlainChar, metaChars]
  have hf : buildFilter env requester { Query.empty with search := some "(" } = none := by
    simp [buildFilter, truthy, Query.empty, hc]
  have hv : listValidators { Query.empty with search := some "(" } = [] := by decide
  simp [listTasks, hv, hf]

/-! ## The overdue counters compared -/

theorem isOverdue_eq_dashboardOverdue (t : Task) (now : Date) (h : FlagConsistent t) :
    t.isOverdue now = dashboardOverdue now t := by
  unfold FlagConsistent at h
  have hl : (t.status.label == "completed") = decide (t.status = .completed) :=
    status_label_beq t.status .completed
  unfold Task.isOverdue dashboardOverdue
  rw [hl, h]
  cases t.dueDate <;> cases hs : decide (t.status = .completed) <;> simp

/-- C25. For user 1 owning one pending task without `dueDate`, whose flag
`isCompleted` agrees with its status, the statistics of the backend report
`overdue = 1`, while the virtual `isOverdue` is true for no task and the
dashboard counts no overdue task. -/
theorem stats_overdue_disagrees_with_isOverdue :
    (∀ t ∈ [{ sampleTask with dueDate := none }], FlagConsistent t ∧ t.user = 1)
      ∧ (∃ stats : Stats,
          statsOverview [{ sampleTask with dueDate := none }] 1 2000 = .ok stats
            ∧ stats.overdue = 1)
      ∧ [{ sampleTask with dueDate := none }].countP (fun t => t.isOverdue 2000) = 0
      ∧ (computeTaskStats 2000 [{ sampleTask with dueDate := none }]).overdue = 0 := by
  refine ⟨by decide, ⟨_, rfl, by decide⟩, by decide, by decide⟩

/-! ## Pages as a partition -/

theorem concatPages_congr (f g : Nat → List Task) :
    ∀ k : Nat, (∀ p, 1 ≤ p → p ≤ k → f p = g p) → concatPages f k = concatPages g k
  | 0, _ => rfl
  | k + 1, h => by
    unfold concatPages
    rw [concatPages_congr f g k (fun p h1 h2 => h p h1 (by omega)), h (k + 1) (by omega)
      (by omega)]

theorem concatPages_slices (l : List Task) (L : Nat) :
    ∀ k : Nat, concatPages (fun p => (l.drop ((p - 1) * L)).take L) k = l.take (k * L)
  | 0 => by simp [concatPages]
  | k + 1 => by
    unfold concatPages
    rw [concatPages_slices l L k]
    simp only [Nat.add_sub_cancel]
    rw [Nat.add_mul, Nat.one_mul, List.take_add]

theorem listValidators_with_page {q : Query} (hval : listValidators q = []) (p : Int)
    (hp : 1 ≤ p) : listValidators { q with page := some (.int p) } = [] := by
  rw [listValidators_eq_nil_iff] at hval ⊢
  obtain ⟨h1, h2, h3, h4, _, h6⟩ := hval
  refine ⟨h1, h2, h3, h4, ?_, h6⟩
  rintro (h | ⟨v, hv, hlt⟩)
  · cases h
  · simp only [Option.some.injEq, NumParam.int.injEq] at hv
    omega

theorem listTasksFrom_ok_inv {env : RegexEnv} {store : Store} {requester : UserId}
    {q : Query} {answer : List Task} {r : ListResult}
    (h : listTasksFrom env store requester q answer = .ok r) :
    listValidators q = [] ∧ ∃ f, buildFilter env requester q = some f := by
  unfold listTasksFrom at h
  simp only at h
  by_cases hval : listValidators q = []
  · refine ⟨hval, ?_⟩
    cases hf : buildFilter env requester q with
    | none => simp [hval, hf] at h
    | some f => exact ⟨f, rfl⟩
  · simp [hval] at h

theorem pairwise_sortLe_sortStage (sortBy sortOrder : String) (l : List Task) :
    (sortStage sortBy sortOrder l).Pairwise (fun a b => sortLe sortBy sortOrder a b = true) := by
  by_cases h : sortOrder = "asc"
  · subst h
    refine (sortStage_asc sortBy l).imp ?_
    intro a b hab
    simpa [sortLe] using hab
  · refine (sortStage_desc sortBy sortOrder h l).imp ?_
    intro a b hab
    simpa [sortLe, h] using hab

theorem sortedAnswer_sortStage (sortBy sortOrder : String) (l : List Task) :
    SortedAnswer sortBy sortOrder l (sortStage sortBy sortOrder l) :=
  ⟨perm_sortStage _ _ _, pairwise_sortLe_sortStage _ _ _⟩

theorem sortedAnswer_unique {sortBy sortOrder : String} {l answer : List Task}
    (hties : NoTies sortBy l) (h : SortedAnswer sortBy sortOrder l answer) :
    answer = sortStage sortBy sortOrder l := by
  obtain ⟨hperm, hsorted⟩ := h
  refine List.Perm.eq_of_sorted ?_ hsorted (pairwise_sortLe_sortStage _ _ _)
    (hperm.trans (perm_sortStage _ _ _).symm)
  intro a b ha hb hab hba
  have ha2 : a ∈ l := hperm.subset ha
  have hb2 : b ∈ l := (perm_sortStage sortBy sortOrder l).subset hb
  unfold sortLe at hab hba
  split_ifs at hab hba
  · exact hties a ha2 b hb2 hab hba
  · exact hties a ha2 b hb2 hba hab

theorem skipDouble_exact {q : Query} (hval : listValidators q = [])
    (h1 : numOr q.page 1 < 2 ^ 53)
    (h2 : (numOr q.page 1 - 1) * numOr q.limit 20 < 2 ^ 53) :
    skipDouble q = (numOr q.page 1 - 1) * numOr q.limit 20
      ∧ jsNumber (numOr q.limit 20) = numOr q.limit 20 := by
  obtain ⟨hp, hl1, hl2⟩ := validated_bounds hval
  have e1 : jsNumber (numOr q.page 1) = numOr q.page 1 := jsNumber_small _ (by omega) h1
  have e2 : jsNumber (numOr q.limit 20) = numOr q.limit 20 :=
    jsNumber_small _ (by omega) (by norm_num; omega)
  have e3 : jsNumber (numOr q.page 1 - 1) = numOr q.page 1 - 1 :=
    jsNumber_small _ (by omega) (lt_of_le_of_lt (by omega) h1)
  have e4 : jsNumber ((numOr q.page 1 - 1) * numOr q.limit 20)
      = (numOr q.page 1 - 1) * numOr q.limit 20 :=
    jsNumber_small _ (by nlinarith) h2
  refine ⟨?_, e2⟩
  unfold skipDouble
  rw [e1, e2, e3, e4]

theorem pageFrom_eq {env : RegexEnv} {store : Store} {requester : UserId} {q : Query}
    {f : Filter} (answers : Nat → List Task) (hval : listValidators q = [])
    (hf : buildFilter env requester q = some f) (p : Nat) (hp : 1 ≤ p)
    (h1 : (p : Int) < 2 ^ 53) (h2 : ((p : Int) - 1) * numOr q.limit 20 < 2 ^ 53) :
    pageFrom env store requester q answers p
      = ((answers p).drop ((p - 1) * (numOr q.limit 20).toNat)).take
          (numOr q.limit 20).toNat := by
  obtain ⟨_, hl1, _⟩ := validated_bounds hval
  have hv := listValidators_with_page hval (p : Int) (by omega)
  have hf2 : buildFilter env requester { q with page := some (.int (p : Int)) } = some f := hf
  obtain ⟨hs, hl⟩ := skipDouble_exact hv h1 h2
  have hl3 : numOr ({ q with page := some (.int (p : Int)) } : Query).limit 20
      = numOr q.limit 20 := rfl
  have hp3 : numOr ({ q with page := some (.int (p : Int)) } : Query).page 1 = (p : Int) := rfl
  rw [hl3] at hl
  rw [hl3, hp3] at hs
  unfold pageFrom
  rw [listTasksFrom_ok _ hv hf2]
  show ((answers p).drop (skipDouble { q with page := some (.int (p : Int)) }).toNat).take
    (jsNumber (numOr q.limit 20)).toNat = _
  rw [hs, hl]
  congr 2
  have e1 : ((p : Int) - 1) = ((p - 1 : Nat) : Int) := by omega
  have e2 : numOr q.limit 20 = ((numOr q.limit 20).toNat : Int) := by
    rw [Int.toNat_of_nonneg]; omega
  have e3 : ((p : Int) - 1) * numOr q.limit 20
      = (((p - 1) * (numOr q.limit 20).toNat : Nat) : Int) := by
    rw [Nat.cast_mul, ← e2, e1]
  rw [e3]
  rfl

theorem mem_pageFrom {env : RegexEnv} {store : Store} {requester : UserId} {q : Query}
    {f : Filter} {answers : Nat → List Task}
    {p : Nat} (hperm : (answers p).Perm (store.filter fun t => f.selects t)) {t : Task}
    (ht : t ∈ pageFrom env store requester q answers p) : t ∈ store ∧ f.selects t = true := by
  unfold pageFrom at ht
  cases hr : listTasksFrom env store requester { q with page := some (.int (p : Int)) }
      (answers p) with
  | ok r =>
    rw [hr] at ht
    obtain ⟨hv, f2, hf2⟩ := listTasksFrom_ok_inv hr
    rw [listTasksFrom_ok _ hv hf2] at hr
    cases hr
    have h1 := List.mem_of_mem_drop (List.mem_of_mem_take ht)
    exact List.mem_filter.1 (hperm.subset h1)
  | created r => rw [hr] at ht; cases ht
  | badRequest e => rw [hr] at ht; cases ht
  | notFound => rw [hr] at ht; cases ht
  | serverError => rw [hr] at ht; cases ht

/-- C26, counterexample. User 1 has the two tasks `A` and `B`, created at the
same instant; the list is requested with the default sort (`createdAt`,
descending) and `limit=1`, so there are two pages. Each page is a query of its
own, and both orders of the two tasks are sorted answers. When the store
answers the query of page 1 with `A` first and the query of page 2 with `B`
first, both pages carry `A`: the pages one after the other are `A, A`, which
is not a rearrangement of the selection, and `B` is on no page. -/
theorem tied_tasks_break_the_partition :
    listValidators { Query.empty with limit := some (.int 1) } = []
      ∧ buildFilter sampleEnv 1 { Query.empty with limit := some (.int 1) }
          = some ⟨1, none, none, none⟩
      ∧ findAll [titled 1 "A", tiedTask] ⟨1, none, none, none⟩ = [titled 1 "A", tiedTask]
      ∧ tiedAnswers 1 = [titled 1 "A", tiedTask]
      ∧ tiedAnswers 2 = [tiedTask, titled 1 "A"]
      ∧ SortedAnswer "createdAt" "desc" [titled 1 "A", tiedTask] (tiedAnswers 1)
      ∧ SortedAnswer "createdAt" "desc" [titled 1 "A", tiedTask] (tiedAnswers 2)
      ∧ listTasksFrom sampleEnv [titled 1 "A", tiedTask] 1
          { Query.empty with limit := some (.int 1), page := some (.int 1) } (tiedAnswers 1)
          = .ok ⟨[titled 1 "A"], ⟨1, 2, 2, true, false⟩⟩
      ∧ listTasksFrom sampleEnv [titled 1 "A", tiedTask] 1
          { Query.empty with limit := some (.int 1), page := some (.int 2) } (tiedAnswers 2)
          = .ok ⟨[titled 1 "A"], ⟨2, 2, 2, false, true⟩⟩
      ∧ concatPages
          (pageFrom sampleEnv [titled 1 "A", tiedTask] 1
            { Query.empty with limit := some (.int 1) } tiedAnswers) 2
          = [titled 1 "A", titled 1 "A"]
      ∧ ¬ ([titled 1 "A", titled 1 "A"] : List Task).Perm [titled 1 "A", tiedTask]
      ∧ tiedTask ∉ ([titled 1 "A", titled 1 "A"] : List Task) := by
  refine ⟨by decide, rfl, by decide, rfl, rfl, ⟨List.Perm.refl _, by decide⟩,
    ⟨List.Perm.swap _ _ _, by decide⟩, by decide, by decide, by decide, by decide, by decide⟩

/-- C26, amended. For a validated list request whose filter selects fewer
than `2^53` stored tasks, no two of them with the same value of the sort key,
and for any sorted answers of the store to the queries of the pages: the
pages `1, ..., totalPages` (each the answer to the request with that page
number and everything else unchanged) put one after the other give the whole
sorted selection; this sequence is a rearrangement of the stored tasks the
filter selects, so each of them is on exactly one page, and a task on any
page is a stored task that the filter selects. -/
theorem pages_partition_selection_without_ties (env : RegexEnv) (store : Store)
    (requester : UserId) (q : Query) (f : Filter) (answers : Nat → List Task)
    (hval : listValidators q = []) (hf : buildFilter env requester q = some f)
    (hN : (store.filter fun t => f.selects t).length < 2 ^ 53)
    (hties : NoTies (q.sortBy.getD "createdAt") (store.filter fun t => f.selects t))
    (hans : ∀ p : Nat, SortedAnswer (q.sortBy.getD "createdAt") (q.sortOrder.getD "desc")
      (store.filter fun t => f.selects t) (answers p)) :
    concatPages (pageFrom env store requester q answers)
        (ceilDiv (countDocuments store f) (numOr q.limit 20)).toNat
        = sortStage (q.sortBy.getD "createdAt") (q.sortOrder.getD "desc") (findAll store f)
      ∧ (concatPages (pageFrom env store requester q answers)
          (ceilDiv (countDocuments store f) (numOr q.limit 20)).toNat).Perm
          (store.filter fun t => f.selects t)
      ∧ (concatPages (pageFrom env store requester q answers)
          (ceilDiv (countDocuments store f) (numOr q.limit 20)).toNat).length
          = (store.filter fun t => f.selects t).length
      ∧ (∀ (p : Nat) (t : Task), t ∈ pageFrom env store requester q answers p →
          t ∈ store ∧ f.selects t = true) := by
  obtain ⟨_, hl1, _⟩ := validated_bounds hval
  obtain ⟨hlb, hub⟩ := ceilDiv_bounds (countDocuments store f) (numOr q.limit 20) hl1
  have hNc : countDocuments store f = ((findAll store f).length : Int) := rfl
  have hN2 : countDocuments store f < 2 ^ 53 := by
    rw [hNc]
    exact_mod_cast hN
  have hpage : ∀ p : Nat, 1 ≤ p →
      p ≤ (ceilDiv (countDocuments store f) (numOr q.limit 20)).toNat →
      pageFrom env store requester q answers p
        = ((sortStage (q.sortBy.getD "createdAt") (q.sortOrder.getD "desc")
            (findAll store f)).drop ((p - 1) * (numOr q.limit 20).toNat)).take
            (numOr q.limit 20).toNat := by
    intro p hp1 hpk
    have hpk2 : (p : Int) ≤ ceilDiv (countDocuments store f) (numOr q.limit 20) := by omega
    have hskip : ((p : Int) - 1) * numOr q.limit 20 < countDocuments store f := by nlinarith
    have hp2 : (p : Int) - 1 ≤ ((p : Int) - 1) * numOr q.limit 20 := by nlinarith
    rw [pageFrom_eq answers hval hf p hp1 (by omega) (lt_trans hskip hN2),
      sortedAnswer_unique hties (hans p)]
    rfl
  have hcat : concatPages (pageFrom env store requester q answers)
      (ceilDiv (countDocuments store f) (numOr q.limit 20)).toNat
      = sortStage (q.sortBy.getD "createdAt") (q.sortOrder.getD "desc") (findAll store f) := by
    rw [concatPages_congr _ _ _ hpage, concatPages_slices]
    apply List.take_of_length_le
    rw [length_sortStage]
    rw [hNc] at hub
    have hnn : 0 ≤ ceilDiv ((findAll store f).length : Int) (numOr q.limit 20) := by
      by_contra hneg
      have : ceilDiv ((findAll store f).length : Int) (numOr q.limit 20) ≤ -1 := by omega
      nlinarith
    rw [hNc]
    have e1 : (((ceilDiv ((findAll store f).length : Int) (numOr q.limit 20)).toNat
        * (numOr q.limit 20).toNat : Nat) : Int)
        = ceilDiv ((findAll store f).length : Int) (numOr q.limit 20) * numOr q.limit 20 := by
      rw [Nat.cast_mul, Int.toNat_of_nonneg hnn, Int.toNat_of_nonneg (by omega)]
    have e2 : ((findAll store f).length : Int)
        ≤ (((ceilDiv ((findAll store f).length : Int) (numOr q.limit 20)).toNat
          * (numOr q.limit 20).toNat : Nat) : Int) := by
      rw [e1]; nlinarith
    exact_mod_cast e2
  refine ⟨hcat, ?_, ?_, fun p t ht => mem_pageFrom (hans p).1 ht⟩
  · rw [hcat]
    exact perm_sortStage _ _ _
  · rw [hcat, length_sortStage]
    rfl

theorem pages_partition_selection_without_ties_witness :
    listValidators { Query.empty with limit := some (.int 2) } = []
      ∧ concatPages
          (pageFrom sampleEnv [titled 1 "C", titled 2 "A", titled 3 "B"] 1
            { Query.empty with limit := some (.int 2) }
            (fun _ => [titled 3 "B", titled 2 "A", titled 1 "C"])) 2
          = [titled 3 "B", titled 2 "A", titled 1 "C"]
      ∧ (concatPages
          (pageFrom sampleEnv [titled 1 "C", titled 2 "A", titled 3 "B"] 1
            { Query.empty with limit := some (.int 2) }
            (fun _ => [titled 3 "B", titled 2 "A", titled 1 "C"]))
          (ceilDiv (countDocuments [titled 1 "C", titled 2 "A", titled 3 "B"]
            ⟨1, none, none, none⟩) (numOr (some (.int 2)) 20)).toNat
          = sortStage ((none : Option String).getD "createdAt")
              ((none : Option String).getD "desc")
              (findAll [titled 1 "C", titled 2 "A", titled 3 "B"] ⟨1, none, none, none⟩)
        ∧ (concatPages
            (pageFrom sampleEnv [titled 1 "C", titled 2 "A", titled 3 "B"] 1
              { Query.empty with limit := some (.int 2) }
              (fun _ => [titled 3 "B", titled 2 "A", titled 1 "C"]))
            (ceilDiv (countDocuments [titled 1 "C", titled 2 "A", titled 3 "B"]
              ⟨1, none, none, none⟩) (numOr (some (.int 2)) 20)).toNat).Perm
            ([titled 1 "C", titled 2 "A", titled 3 "B"].filter
              fun t => Filter.selects ⟨1, none, none, none⟩ t)
        ∧ (concatPages
            (pageFrom sampleEnv [titled 1 "C", titled 2 "A", titled 3 "B"] 1
              { Query.empty with limit := some (.int 2) }
              (fun _ => [titled 3 "B", titled 2 "A", titled 1 "C"]))
            (ceilDiv (countDocuments [titled 1 "C", titled 2 "A", titled 3 "B"]
              ⟨1, none, none, none⟩) (numOr (some (.int 2)) 20)).toNat).length
            = ([titled 1 "C", titled 2 "A", titled 3 "B"].filter
                fun t => Filter.selects ⟨1, none, none, none⟩ t).length
        ∧ (∀ (p : Nat) (t : Task),
            t ∈ pageFrom sampleEnv [titled 1 "C", titled 2 "A", titled 3 "B"] 1
                { Query.empty with limit := some (.int 2) }
                (fun _ => [titled 3 "B", titled 2 "A", titled 1 "C"]) p →
              t ∈ [titled 1 "C", titled 2 "A", titled 3 "B"]
                ∧ Filter.selects ⟨1, none, none, none⟩ t = true)) :=
  ⟨by decide, by decide,
    pages_partition_selection_without_ties sampleEnv
      [titled 1 "C", titled 2 "A", titled 3 "B"] 1
      { Query.empty with limit := some (.int 2) } ⟨1, none, none, none⟩
      (fun _ => [titled 3 "B", titled 2 "A", titled 1 "C"]) (by decide) rfl (by decide)
      (by unfold NoTies; decide)
      (fun _ =>
        (show SortedAnswer "createdAt" "desc"
            ([titled 1 "C", titled 2 "A", titled 3 "B"].filter
              fun t => Filter.selects ⟨1, none, none, none⟩ t)
            [titled 3 "B", titled 2 "A", titled 1 "C"] from ⟨by decide, by decide⟩))⟩

/-! ## The auth reducer -/

theorem authReducer_consistent (s : AuthState) (a : AuthAction) (h : AuthConsistent s)
    (ha : ∀ payload, a = .updateProfile payload → s.user.isSome = true) :
    AuthConsistent (authReducer s a) := by
  unfold AuthConsistent at h ⊢
  cases a with
  | setLoading b => exact h
  | setUser u => rfl
  | setToken t => exact h
  | logout => rfl
  | updateProfile payload =>
    have := ha payload rfl
    simp [authReducer, h, this]

theorem authReducer_logout (s : AuthState) :
    (authReducer s .logout).user = none ∧ (authReducer s .logout).token = none
      ∧ (authReducer s .logout).isAuthenticated = false :=
  ⟨rfl, rfl, rfl⟩

/-- C27. From the initial state, the actions of a login (`SET_LOADING`,
`SET_TOKEN`, `SET_USER`), a `LOGOUT`, and then an `UPDATE_PROFILE` lead to a
state whose user is an object while `isAuthenticated` is false:
`{ ...state.user, ...action.payload }` is an object also when `state.user` is
`null`, and `UPDATE_PROFILE` does not touch the flag. The same holds for
`UPDATE_PROFILE` as the first action. -/
theorem update_profile_breaks_auth_flag :
    AuthConsistent (authInitialState none)
      ∧ ([AuthAction.setLoading true, .setToken (some "t"),
            .setUser (some [("firstName", "Ada")]), .logout,
            .updateProfile [("firstName", "Ada"), ("lastName", "Byron")]].foldl authReducer
          (authInitialState none))
          = { user := some [("firstName", "Ada"), ("lastName", "Byron")], token := none,
              isAuthenticated := false, loading := false }
      ∧ ¬ AuthConsistent
          ([AuthAction.setLoading true, .setToken (some "t"),
              .setUser (some [("firstName", "Ada")]), .logout,
              .updateProfile [("firstName", "Ada"), ("lastName", "Byron")]].foldl authReducer
            (authInitialState none))
      ∧ ¬ AuthConsistent
          (authReducer (authInitialState none) (.updateProfile [("firstName", "Ada")])) := by
  refine ⟨by decide, by decide, by decide, by decide⟩

/-! ## The statistics of the dashboard -/

theorem statsEffect_nonempty (now : Date) (tasks : List Task) (stats : DashboardStats)
    (h : tasks ≠ []) : statsEffect now tasks stats = computeTaskStats now tasks := by
  unfold statsEffect
  rw [if_pos (List.length_pos.2 h)]

/-- C28. After the effect ran for the list holding one task and then for the
empty list, the displayed counters are still those of the one task
(`total = 1`, `pending = 1`, `overdue = 1`, `high = 1`), not 0: for an empty
list the effect leaves the `stats` state as it was. -/
theorem dashboard_stats_stale_on_empty_list :
    statsEffect 2000 [sampleTask] dashboardInitialStats = ⟨1, 0, 1, 0, 1, 0, 1⟩
      ∧ statsEffect 2000 [] (statsEffect 2000 [sampleTask] dashboardInitialStats)
          = ⟨1, 0, 1, 0, 1, 0, 1⟩
      ∧ statsEffect 2000 [] (statsEffect 2000 [sampleTask] dashboardInitialStats)
          ≠ ⟨0, 0, 0, 0, 0, 0, 0⟩
      ∧ (∀ (now : Date) (stats : DashboardStats), statsEffect now [] stats = stats) := by
  refine ⟨by decide, by decide, by decide, fun _ _ => rfl⟩

/-! ## The task reducer -/

/-- C29. `DELETE_TASK` with id `i` keeps exactly the tasks whose id is not
`i`, in their order, leaves filters, sort, search and pagination as they are,
and applied twice gives the same state as applied once. `UPDATE_TASK` with a
task `t` keeps the number of tasks and their positions, puts `t` at every
position whose task has the id of `t` and leaves the other positions alone,
and changes nothing when no task has that id. -/
theorem taskReducer_delete_update (s : TaskState) (i : TaskId) (t : Task) :
    ((taskReducer s (.deleteTask i)).tasks = s.tasks.filter (fun x => x.id != i)
        ∧ (∀ x : Task, x ∈ (taskReducer s (.deleteTask i)).tasks ↔ x ∈ s.tasks ∧ x.id ≠ i)
        ∧ (taskReducer s (.deleteTask i)).tasks.Sublist s.tasks
        ∧ (taskReducer s (.deleteTask i)).filters = s.filters
        ∧ (taskReducer s (.deleteTask i)).sort = s.sort
        ∧ (taskReducer s (.deleteTask i)).search = s.search
        ∧ (taskReducer s (.deleteTask i)).pagination = s.pagination
        ∧ taskReducer (taskReducer s (.deleteTask i)) (.deleteTask i)
            = taskReducer s (.deleteTask i))
      ∧ ((taskReducer s (.updateTask t)).tasks.length = s.tasks.length
        ∧ (∀ k : Nat, (taskReducer s (.updateTask t)).tasks[k]?
            = (s.tasks[k]?).map (fun x => if x.id = t.id then t else x))
        ∧ (taskReducer s (.updateTask t)).tasks.map Task.id = s.tasks.map Task.id
        ∧ (taskReducer s (.updateTask t)).filters = s.filters
        ∧ (taskReducer s (.updateTask t)).sort = s.sort
        ∧ (taskReducer s (.updateTask t)).search = s.search
        ∧ (taskReducer s (.updateTask t)).pagination = s.pagination
        ∧ ((∀ x ∈ s.tasks, x.id ≠ t.id) → taskReducer s (.updateTask t) = s)) := by
  refine ⟨⟨rfl, ?_, ?_, rfl, rfl, rfl, rfl, ?_⟩, ⟨?_, ?_, ?_, rfl, rfl, rfl, rfl, ?_⟩⟩
  · intro x
    simp [taskReducer, List.mem_filter]
  · exact List.filter_sublist _
  · simp only [taskReducer, List.filter_filter, Bool.and_self]
  · simp [taskReducer]
  · intro k
    simp [taskReducer, List.getElem?_map]
  · simp only [taskReducer, List.map_map]
    apply List.map_congr_left
    intro x _
    simp only [Function.comp]
    split_ifs with h
    · exact h.symm
    · rfl
  · intro h
    have hmap : s.tasks.map (fun x => if x.id = t.id then t else x) = s.tasks := by
      conv_rhs => rw [← List.map_id s.tasks]
      apply List.map_congr_left
      intro x hx
      simp [h x hx]
    simp only [taskReducer, hmap]

/-- C30. Each of `setFilters`, `setSort`, `setSearch` and `clearFilters`
leaves the tasks as they are and sets `currentPage` to 1 without changing
`totalPages`, `totalTasks`, `hasNext` and `hasPrev`. `setFilters` sets the
filter keys its payload carries and keeps the others, the sort and the search;
`setSort` does so for the sort keys; `setSearch` replaces the search only;
`clearFilters` empties both filters and the search and keeps the sort. -/
theorem context_setters_frame (s : TaskState) (filters : FiltersPatch) (sort : SortPatch)
    (search : String) :
    ((setFilters s filters).tasks = s.tasks
        ∧ (setFilters s filters).pagination = { s.pagination with currentPage := 1 }
        ∧ (setFilters s filters).filters.status = filters.status.getD s.filters.status
        ∧ (setFilters s filters).filters.priority = filters.priority.getD s.filters.priority
        ∧ (filters.status = none → (setFilters s filters).filters.status = s.filters.status)
        ∧ (filters.priority = none →
            (setFilters s filters).filters.priority = s.filters.priority)
        ∧ (setFilters s filters).sort = s.sort
        ∧ (setFilters s filters).search = s.search)
      ∧ ((setSort s sort).tasks = s.tasks
        ∧ (setSort s sort).pagination = { s.pagination with currentPage := 1 }
        ∧ (setSort s sort).sort.sortBy = sort.sortBy.getD s.sort.sortBy
        ∧ (setSort s sort).sort.sortOrder = sort.sortOrder.getD s.sort.sortOrder
        ∧ (setSort s sort).filters = s.filters
        ∧ (setSort s sort).search = s.search)
      ∧ ((setSearch s search).tasks = s.tasks
        ∧ (setSearch s search).pagination = { s.pagination with currentPage := 1 }
        ∧ (setSearch s search).search = search
        ∧ (setSearch s search).filters = s.filters
        ∧ (setSearch s search).sort = s.sort)
      ∧ ((clearFilters s).tasks = s.tasks
        ∧ (clearFilters s).pagination = { s.pagination with currentPage := 1 }
        ∧ (clearFilters s).filters.status = ""
        ∧ (clearFilters s).filters.priority = ""
        ∧ (clearFilters s).search = ""
        ∧ (clearFilters s).sort = s.sort) := by
  refine ⟨⟨rfl, rfl, rfl, rfl, ?_, ?_, rfl, rfl⟩, ⟨rfl, rfl, rfl, rfl, rfl, rfl⟩,
    ⟨rfl, rfl, rfl, rfl, rfl⟩, ⟨rfl, rfl, rfl, rfl, rfl, rfl⟩⟩
  · intro h
    simp [setFilters, taskReducer, h]
  · intro h
    simp [setFilters, taskReducer, h]

end TaskFlow
